import Mathlib

/-!
Shallow embedding of the deterministic game engine of the SolidRusT
world-war game (Risk-derived rules).  The definitions below are direct
translations of the JavaScript sources: `models.js` (Territory, Continent,
Player, Card, GameState), `game-engine.js` (GameEngine.processReinforcement,
processAttack, completeConquest, processFortification), the enhanced
GameState (`processCardTrade`, `calculateSetNumber`, `calculateArmiesForSet`,
`isValidCardSet`), `combat-system.js` (compareDice) and
`events/events-manager.js` (getMovementModifiers).

JavaScript numbers holding army counts are embedded as `Int` (the source
performs unclamped subtraction in places, so counts can go negative).
In-place mutation of the object graph is embedded as explicit state passing;
mutating the object returned by `Array.prototype.find` is embedded as
updating the first list element matching the same predicate.  `Math.random`
dice rolls are embedded by passing the rolled values as extra arguments.
-/

/-- Unit counts of a territory: `territory.armies` in `models.js`. -/
structure Armies where
  infantry : Int
  cavalry : Int
  artillery : Int
deriving DecidableEq, Repr

/-- Weighted army value: `infantry + cavalry*3 + artillery*5`
(`Territory.getTotalArmies`). -/
def Armies.total (a : Armies) : Int :=
  a.infantry + a.cavalry * 3 + a.artillery * 5

/-- Territory feature flags (`territory.features`). -/
structure Features where
  hasResearchCenter : Bool
  hasCapital : Bool
  hasPort : Bool
deriving DecidableEq, Repr

/-- A territory (`class Territory` in `models.js`).  `resources` is the
territory's resource-yield object embedded as a key/value list. -/
structure Territory where
  id : String
  name : String
  adjacentTerritories : List String
  continent : String
  occupyingPlayer : Option String
  armies : Armies
  resources : List (String × Int)
  features : Features
deriving DecidableEq, Repr

/-- `Territory.getTotalArmies()`. -/
def Territory.getTotalArmies (t : Territory) : Int :=
  t.armies.total

/-- `Territory.isAdjacentTo(territoryId)`. -/
def Territory.isAdjacentTo (t : Territory) (territoryId : String) : Bool :=
  t.adjacentTerritories.contains territoryId

/-- A continent (`class Continent`). -/
structure Continent where
  id : String
  name : String
  territories : List String
  bonusArmies : Int
deriving DecidableEq, Repr

/-- A card (`class Card`); `type` is one of infantry/cavalry/artillery/wild. -/
structure Card where
  id : String
  type : String
  territoryId : Option String
deriving DecidableEq, Repr

/-- The four per-player resource counters (`player.resources`). -/
structure Resources where
  food : Int
  production : Int
  research : Int
  wealth : Int
deriving DecidableEq, Repr

/-- Per-player victory progress counters used by
`GameState.checkVictoryConditions` (lazily initialised to 0 in the source). -/
structure VictoryProgress where
  economicCount : Nat
  diplomaticCount : Nat
deriving DecidableEq, Repr

/-- A player (`class Player` in `models.js`). -/
structure Player where
  id : String
  name : String
  color : String
  territories : List String
  cards : List Card
  resources : Resources
  technologies : List String
  allies : List String
  eliminated : Bool
  victoryProgress : VictoryProgress
deriving DecidableEq, Repr

/-- `Player.getReinforcementArmies(continents, territories)`:
`max(3, floor(n/3))` plus the bonus of each fully-owned continent. -/
def Player.getReinforcementArmies (p : Player) (continents : List Continent) : Int :=
  let base : Int := max 3 (Int.ofNat (p.territories.length / 3))
  continents.foldl
    (fun acc c =>
      if c.territories.all (fun terrId => p.territories.contains terrId) then
        acc + c.bonusArmies
      else acc)
    base

/-- The transient pending-conquest record written by
`GameEngine.processAttack` into `gameState.pendingConquest`. -/
structure PendingConquest where
  fromTerritoryId : String
  toTerritoryId : String
  minArmies : Int
  maxArmies : Int
  defenderId : Option String
deriving DecidableEq, Repr

/-- An active event as consulted by the events manager read queries:
`effectType`, `targetPlayerId`, and `movementEffect.rangeModifier`
(`none` when the event has no `movementEffect`). -/
structure ActiveEvent where
  effectType : String
  targetPlayerId : String
  movementRangeModifier : Option Int
deriving DecidableEq, Repr

/-- The events manager state that the engine's fortification path reads
(`gameState.eventsManager.activeEvents`). -/
structure EventsManager where
  activeEvents : List ActiveEvent
deriving DecidableEq, Repr

/-- `EventsManager.getMovementModifiers(playerId)`: sum of the
`rangeModifier` of active movement events targeting the player. -/
def EventsManager.getMovementModifiers (m : EventsManager) (playerId : String) : Int :=
  (m.activeEvents.filter
      (fun e => e.effectType == "movement" && e.targetPlayerId == playerId)).foldl
    (fun acc e =>
      match e.movementRangeModifier with
      | some r => acc + r
      | none => acc)
    0

/-- The game configuration flags the embedded operations consult. -/
structure Config where
  enableTechnologies : Bool
  enableResources : Bool
  enableEvents : Bool
  enableAlliances : Bool
  victoryConditions : List String
deriving DecidableEq, Repr

/-- An event-log entry; the engine only ever inspects the `type` tag
(`calculateSetNumber` counts entries with type `card-trade`). -/
structure LogEvent where
  type : String
  playerId : Option String
deriving DecidableEq, Repr

/-- The aggregate game state (`class GameState` in `models.js`, plus the
`pendingConquest` field written by the engine and the `eventsManager`
reference).  `winner` holds the winning player's id (the source stores an
object reference, serialised by id). -/
structure GameState where
  config : Config
  players : List Player
  territories : List Territory
  continents : List Continent
  cardDeck : List Card
  discardPile : List Card
  currentPlayerIndex : Nat
  phase : String
  turn : Int
  gameOver : Bool
  winner : Option String
  victoryType : Option String
  eventLog : List LogEvent
  activeEvents : List ActiveEvent
  cardAwarded : Bool
  pendingConquest : Option PendingConquest
  eventsManager : Option EventsManager
deriving DecidableEq, Repr

/-- `GameState.getCurrentPlayer()`: `players[currentPlayerIndex]`. -/
def GameState.getCurrentPlayer (st : GameState) : Option Player :=
  st.players.get? st.currentPlayerIndex

/-- Update the first element of a list satisfying `p` (embeds mutating the
object returned by `Array.prototype.find`). -/
def updateFirst {α : Type} (p : α → Bool) (f : α → α) : List α → List α
  | [] => []
  | x :: xs => if p x then f x :: xs else x :: updateFirst p f xs

/-- Amount of a named resource in a territory's resource object
(a missing key reads as 0, as in JavaScript). -/
def resourceAmount (rs : List (String × Int)) (key : String) : Int :=
  (rs.filter (fun kv => kv.1 == key)).foldl (fun acc kv => acc + kv.2) 0

/-- The loop body of `GameState.nextPlayer()`: starting from
`(start+1) % n`, skip eliminated players; if the scan wraps back to `start`,
report game over.  Returns the final index and the game-over flag.  `fuel`
bounds the scan (the source loop visits at most `n` indices before the
wrap-around break). -/
def findNextIndex (players : List Player) (start : Nat) : Nat → Nat → Nat × Bool
  | 0, idx => (idx, false)
  | fuel + 1, idx =>
    match players.get? idx with
    | none => (idx, false)
    | some p =>
      if p.eliminated then
        let idx' := (idx + 1) % players.length
        if idx' = start then (idx', true)
        else findNextIndex players start fuel idx'
      else (idx, false)

/-- `GameState.nextPlayer()` from `models.js`: advance `currentPlayerIndex`
past eliminated players (declaring the current player winner if the scan
wraps), and increment the turn counter on wrap-around to index 0. -/
def GameState.nextPlayer (st : GameState) : GameState :=
  let (idx, over) := findNextIndex st.players st.currentPlayerIndex
      st.players.length ((st.currentPlayerIndex + 1) % st.players.length)
  let st1 :=
    if over then
      { st with gameOver := true,
                winner := (st.players.get? st.currentPlayerIndex).map (fun p => p.id) }
    else st
  let st2 := { st1 with currentPlayerIndex := idx }
  if idx = 0 then { st2 with turn := st2.turn + 1 } else st2

/-- Resource totals accumulated by `GameState.calculateResourceProduction`. -/
def Resources.add (a b : Resources) : Resources :=
  ⟨a.food + b.food, a.production + b.production,
   a.research + b.research, a.wealth + b.wealth⟩

/-- `GameState.calculateResourceProduction()`: sum the current player's
territory resource yields (research-center and port features add +1
research / +1 wealth) and add the total to the player's resource pool. -/
def GameState.calculateResourceProduction (st : GameState) : GameState :=
  match st.getCurrentPlayer with
  | none => st
  | some cp =>
    if cp.eliminated then st
    else
      let prod := cp.territories.foldl
        (fun (acc : Resources) terrId =>
          match st.territories.find? (fun t => t.id == terrId) with
          | none => acc
          | some t =>
            let acc := Resources.add acc
              ⟨resourceAmount t.resources "food",
               resourceAmount t.resources "production",
               resourceAmount t.resources "research",
               resourceAmount t.resources "wealth"⟩
            let acc := if t.features.hasResearchCenter then
                { acc with research := acc.research + 1 } else acc
            if t.features.hasPort then { acc with wealth := acc.wealth + 1 } else acc)
        ⟨0, 0, 0, 0⟩
      let cp' := { cp with resources := Resources.add cp.resources prod }
      { st with players := st.players.set st.currentPlayerIndex cp' }

/-- Economic-victory scan of `GameState.checkVictoryConditions` (iterates
players in roster order, mutating per-player counters, stopping at the
first winner).  `2 * k > n` renders the JavaScript real-number comparison
`k > n / 2`. -/
def checkEconomicLoop (st : GameState) : List String → GameState × Bool
  | [] => (st, false)
  | pid :: rest =>
    match st.players.find? (fun p => p.id == pid) with
    | none => checkEconomicLoop st rest
    | some p =>
      if p.eliminated then checkEconomicLoop st rest
      else
        let wealthT := st.territories.filter
          (fun t => resourceAmount t.resources "wealth" > 0)
        let mine := wealthT.filter (fun t => t.occupyingPlayer == some p.id)
        if 2 * mine.length > wealthT.length then
          let newCount := p.victoryProgress.economicCount + 1
          let players' := updateFirst (fun q => q.id == pid)
            (fun q => { q with victoryProgress :=
              { q.victoryProgress with economicCount := newCount } }) st.players
          let st' := { st with players := players' }
          if newCount ≥ 3 then
            ({ st' with gameOver := true, winner := some pid,
                        victoryType := some "economic" }, true)
          else checkEconomicLoop st' rest
        else
          let players' := updateFirst (fun q => q.id == pid)
            (fun q => { q with victoryProgress :=
              { q.victoryProgress with economicCount := 0 } }) st.players
          checkEconomicLoop { st with players := players' } rest

/-- Technological-victory scan of `GameState.checkVictoryConditions`. -/
def checkTechnologicalLoop (st : GameState) : List String → GameState × Bool
  | [] => (st, false)
  | pid :: rest =>
    match st.players.find? (fun p => p.id == pid) with
    | none => checkTechnologicalLoop st rest
    | some p =>
      if p.eliminated then checkTechnologicalLoop st rest
      else if p.technologies.contains "technological-supremacy" then
        ({ st with gameOver := true, winner := some pid,
                   victoryType := some "technological" }, true)
      else checkTechnologicalLoop st rest

/-- Diplomatic-victory scan of `GameState.checkVictoryConditions`;
`2 * k ≥ n - 1` renders the JavaScript comparison `k >= (n - 1) / 2`. -/
def checkDiplomaticLoop (st : GameState) : List String → GameState × Bool
  | [] => (st, false)
  | pid :: rest =>
    match st.players.find? (fun p => p.id == pid) with
    | none => checkDiplomaticLoop st rest
    | some p =>
      if p.eliminated then checkDiplomaticLoop st rest
      else
        let active := st.players.filter (fun q => !q.eliminated)
        let allies := p.allies.filter
          (fun allyId => st.players.any (fun q => q.id == allyId && !q.eliminated))
        if 2 * allies.length ≥ active.length - 1 then
          let newCount := p.victoryProgress.diplomaticCount + 1
          let players' := updateFirst (fun q => q.id == pid)
            (fun q => { q with victoryProgress :=
              { q.victoryProgress with diplomaticCount := newCount } }) st.players
          let st' := { st with players := players' }
          if newCount ≥ 3 then
            ({ st' with gameOver := true, winner := some pid,
                        victoryType := some "diplomatic" }, true)
          else checkDiplomaticLoop st' rest
        else
          let players' := updateFirst (fun q => q.id == pid)
            (fun q => { q with victoryProgress :=
              { q.victoryProgress with diplomaticCount := 0 } }) st.players
          checkDiplomaticLoop { st with players := players' } rest

/-- `GameState.checkVictoryConditions()` from `models.js`: walk the
configured victory-condition list, short-circuiting at the first winner. -/
def GameState.checkVictoryConditions (st : GameState) : GameState :=
  checkVictoryLoop st st.config.victoryConditions
where
  checkVictoryLoop (st : GameState) : List String → GameState
    | [] => st
    | vc :: rest =>
      if vc = "economic" then
        let (st', won) := checkEconomicLoop st (st.players.map (fun p => p.id))
        if won then st' else checkVictoryLoop st' rest
      else if vc = "technological" then
        let (st', won) := checkTechnologicalLoop st (st.players.map (fun p => p.id))
        if won then st' else checkVictoryLoop st' rest
      else if vc = "diplomatic" then
        let (st', won) := checkDiplomaticLoop st (st.players.map (fun p => p.id))
        if won then st' else checkVictoryLoop st' rest
      else checkVictoryLoop st rest

/-- `GameState.checkGameEnd()`: military victory when one non-eliminated
player remains, otherwise delegate to `checkVictoryConditions`. -/
def GameState.checkGameEnd (st : GameState) : GameState :=
  let active := st.players.filter (fun p => !p.eliminated)
  if active.length = 1 then
    { st with gameOver := true,
              winner := active.head?.map (fun p => p.id),
              victoryType := some "military" }
  else st.checkVictoryConditions

/-- `GameState.nextPhase()` from `models.js`: reinforcement → attack
(resetting `cardAwarded`) → fortification → reinforcement of the next
player, collecting resources for the new player when enabled. -/
def GameState.nextPhase (st : GameState) : GameState :=
  if st.phase = "reinforcement" then
    { st with phase := "attack", cardAwarded := false }
  else if st.phase = "attack" then
    { st with phase := "fortification" }
  else if st.phase = "fortification" then
    let st1 := ({ st with phase := "reinforcement" } : GameState).nextPlayer
    if st1.config.enableResources then st1.calculateResourceProduction else st1
  else st

/-- The current-player check repeated at the top of the engine actions
(`getCurrentPlayer().id === playerId`, with the source's fallback to the
index when `getCurrentPlayer` is unavailable). -/
def isCurrentPlayerCheck (st : GameState) (playerId : String) : Bool :=
  match st.getCurrentPlayer with
  | some cp => cp.id == playerId
  | none => false

/-- The reinforcement-application loop of `GameEngine.processReinforcement`:
for each `(territoryId, count)` entry, fail (keeping the mutations already
applied) when the territory is missing or not owned by the player,
otherwise add `count` infantry and continue. -/
def applyReinforcements (playerId : String) :
    GameState → List (String × Int) → Bool × GameState
  | st, [] => (true, st)
  | st, (territoryId, count) :: rest =>
    match st.territories.find? (fun t => t.id == territoryId) with
    | none => (false, st)
    | some t =>
      if t.occupyingPlayer != some playerId then (false, st)
      else
        let territories' := updateFirst (fun t => t.id == territoryId)
          (fun t => { t with armies :=
            { t.armies with infantry := t.armies.infantry + count } })
          st.territories
        applyReinforcements playerId { st with territories := territories' } rest

/-- `GameEngine.processReinforcement(playerId, reinforcements)`.  The
reinforcement map (a JavaScript object) is embedded as an association
list traversed in `Object.entries` order. -/
def GameEngine.processReinforcement (st : GameState) (playerId : String)
    (reinforcements : List (String × Int)) : Bool × GameState :=
  match st.players.find? (fun p => p.id == playerId) with
  | none => (false, st)
  | some player =>
    if !(isCurrentPlayerCheck st playerId) || st.phase != "reinforcement" then
      (false, st)
    else
      let allowed := player.getReinforcementArmies st.continents
      let total := reinforcements.foldl (fun acc kv => acc + kv.2) 0
      if total > allowed then (false, st)
      else
        match applyReinforcements playerId st reinforcements with
        | (true, st') => (true, st'.nextPhase)
        | (false, st') => (false, st')

/-- Insert a value into a descending-sorted list (used to embed
`rolls.sort((a, b) => b - a)`). -/
def insertDesc (x : Int) : List Int → List Int
  | [] => [x]
  | y :: ys => if x ≥ y then x :: y :: ys else y :: insertDesc x ys

/-- Sort a dice list in descending order (`sort((a, b) => b - a)`). -/
def sortDesc (l : List Int) : List Int :=
  l.foldr insertDesc []

/-- The paired dice comparison shared by `CombatSystem.compareDice` and the
inline loop of `GameEngine.processAttack`: walk both (sorted) lists
index-by-index up to the shorter length; the defender loses the pair when
the attacker's value is strictly greater, otherwise (ties included) the
attacker loses it.  Returns `(attackerLosses, defenderLosses)`. -/
def compareDice : List Int → List Int → Nat × Nat
  | a :: as, d :: ds =>
    let (al, dl) := compareDice as ds
    if a > d then (al, dl + 1) else (al + 1, dl)
  | _, _ => (0, 0)

/-- Casualty application of `GameEngine.processAttack` (also
`CombatSystem.applyCasualties`): remove `losses` units, infantry first,
then cavalry, then artillery, each removal clamped by availability. -/
def applyLosses (a : Armies) (losses : Int) : Armies :=
  let infantryLosses := min a.infantry losses
  let inf := a.infantry - infantryLosses
  let rem1 := losses - infantryLosses
  let cavalryLosses := if rem1 > 0 then min a.cavalry rem1 else 0
  let cav := a.cavalry - cavalryLosses
  let rem2 := rem1 - cavalryLosses
  let artilleryLosses := if rem2 > 0 then min a.artillery rem2 else 0
  ⟨inf, cav, a.artillery - artilleryLosses⟩

/-- Result object of `GameEngine.processAttack`. -/
inductive AttackResult
  | failure (error : String)
  | success (attackRolls defenseRolls : List Int)
      (attackerLosses defenderLosses : Nat) (territoryConquered : Bool)
deriving DecidableEq, Repr

/-- The combat-resolution phase of `GameEngine.processAttack` once all
validations have passed: sort the rolls descending, pair and compare them,
apply the clamped casualties to both territories, and when the defender's
army value reaches 0 open the pending conquest (with `minArmies` the dice
count and `maxArmies` the attacker's post-casualty army value minus 1) and
set the card-awarded flag. -/
def attackApply (st : GameState) (fromTerritoryId toTerritoryId : String)
    (attackDice : Int) (fromTerritory toTerritory : Territory)
    (attackRollsRaw defenseRollsRaw : List Int) : AttackResult × GameState :=
  let attackRolls := sortDesc attackRollsRaw
  let defenseRolls := sortDesc defenseRollsRaw
  let (attackerLosses, defenderLosses) := compareDice attackRolls defenseRolls
  let fromArmies := applyLosses fromTerritory.armies (Int.ofNat attackerLosses)
  let toArmies := applyLosses toTerritory.armies (Int.ofNat defenderLosses)
  let territories' :=
    updateFirst (fun t => t.id == fromTerritoryId)
      (fun t => { t with armies := fromArmies })
      (updateFirst (fun t => t.id == toTerritoryId)
        (fun t => { t with armies := toArmies }) st.territories)
  let st1 := { st with territories := territories' }
  if toArmies.total = 0 then
    let pending : PendingConquest :=
      { fromTerritoryId := fromTerritoryId
        toTerritoryId := toTerritoryId
        minArmies := attackDice
        maxArmies := fromArmies.total - 1
        defenderId := toTerritory.occupyingPlayer }
    (.success attackRolls defenseRolls attackerLosses defenderLosses true,
     { st1 with pendingConquest := some pending, cardAwarded := true })
  else
    (.success attackRolls defenseRolls attackerLosses defenderLosses false, st1)

/-- `GameEngine.processAttack(playerId, fromTerritoryId, toTerritoryId,
attackDice)`.  The pseudo-random rolls produced by `rollDice` are passed in
as `attackRollsRaw`/`defenseRollsRaw` (standing for lists of length
`attackDice` and `min 2 (defender total)` respectively). -/
def GameEngine.processAttack (st : GameState)
    (playerId fromTerritoryId toTerritoryId : String) (attackDice : Int)
    (attackRollsRaw defenseRollsRaw : List Int) : AttackResult × GameState :=
  match st.players.find? (fun p => p.id == playerId) with
  | none => (.failure "Invalid player", st)
  | some _player =>
    if !(isCurrentPlayerCheck st playerId) then (.failure "Not your turn", st)
    else if st.phase != "attack" then (.failure "Not in attack phase", st)
    else
      match st.territories.find? (fun t => t.id == fromTerritoryId),
            st.territories.find? (fun t => t.id == toTerritoryId) with
      | none, _ => (.failure "Invalid territory", st)
      | _, none => (.failure "Invalid territory", st)
      | some fromTerritory, some toTerritory =>
        if fromTerritory.occupyingPlayer != some playerId then
          (.failure "You do not control the attacking territory", st)
        else if toTerritory.occupyingPlayer == some playerId then
          (.failure "You cannot attack your own territory", st)
        else if !(fromTerritory.isAdjacentTo toTerritoryId) then
          (.failure "Territories are not adjacent", st)
        else if fromTerritory.getTotalArmies < 2 then
          (.failure "Need at least 2 armies to attack", st)
        else if attackDice < 1 || attackDice > 3 then
          (.failure "Invalid attack dice count", st)
        else if fromTerritory.getTotalArmies ≤ attackDice then
          (.failure "Not enough armies for selected dice count", st)
        else
          attackApply st fromTerritoryId toTerritoryId attackDice
            fromTerritory toTerritory attackRollsRaw defenseRollsRaw

/-- Result object of `GameEngine.completeConquest`. -/
inductive ConquestResult
  | noPending
  | notYourConquest
  | invalidCount (minArmies maxArmies : Int)
  | completed (conqueredTerritoryName : String) (defenderEliminated : Bool)
deriving DecidableEq, Repr

/-- Number of territories currently listed for a player (a re-read of
`defender.territories.length` after mutation). -/
def defenderTerritoryCount (st : GameState) (pid : String) : Nat :=
  (((st.players.find? (fun p => p.id == pid)).map
    (fun p => p.territories)).getD []).length

/-- The card hand currently listed for a player in a roster. -/
def playerCards (players : List Player) (pid : String) : List Card :=
  ((players.find? (fun p => p.id == pid)).map (fun p => p.cards)).getD []

/-- The `eliminated` flag currently recorded for a player (a re-read of
`defender.eliminated` after mutation). -/
def defenderEliminatedFlag (st : GameState) (pid : String) : Bool :=
  ((st.players.find? (fun p => p.id == pid)).map (fun p => p.eliminated)).getD false

/-- The mutation sequence of `GameEngine.completeConquest` once validation
has passed and the referenced attacker, defender and territories have been
found: transfer ownership, set the conquered territory's infantry to
`armyCount`, subtract `armyCount` from the attacker's infantry, update both
players' territory lists, and on defender elimination transfer the
defender's cards and run `checkGameEnd`. -/
def conquestApply (st : GameState) (pc : PendingConquest) (playerId : String)
    (armyCount : Int) (defenderId : String) : GameState :=
  let terrs1 := updateFirst (fun t => t.id == pc.toTerritoryId)
    (fun t => { t with occupyingPlayer := some playerId,
                       armies := { t.armies with infantry := armyCount } })
    st.territories
  let terrs2 := updateFirst (fun t => t.id == pc.fromTerritoryId)
    (fun t => { t with armies :=
      { t.armies with infantry := t.armies.infantry - armyCount } })
    terrs1
  let players3 := updateFirst (fun p => p.id == playerId)
    (fun p => { p with territories := p.territories ++ [pc.toTerritoryId] })
    st.players
  let players4 := updateFirst (fun p => p.id == defenderId)
    (fun p => { p with territories :=
      p.territories.filter (fun tid => tid != pc.toTerritoryId) })
    players3
  let st4 := { st with territories := terrs2, players := players4 }
  if defenderTerritoryCount st4 defenderId = 0 then
    let players5 := updateFirst (fun p => p.id == defenderId)
      (fun p => { p with eliminated := true }) st4.players
    let defenderCards := playerCards players5 defenderId
    let players6a := updateFirst (fun p => p.id == playerId)
      (fun p => { p with cards := p.cards ++ defenderCards }) players5
    let players6 := updateFirst (fun p => p.id == defenderId)
      (fun p => { p with cards := [] }) players6a
    GameState.checkGameEnd { st4 with players := players6 }
  else st4

/-- `GameEngine.completeConquest(playerId, armyCount)`: validate the pending
conquest, then apply `conquestApply` and clear the pending record.  The
returned `defenderEliminated` flag is the defender's `eliminated` field
after all mutations, as in the source.  `none` embeds the JavaScript
`TypeError` thrown when a referenced player or territory is missing (a
`null` `defenderId` included). -/
def GameEngine.completeConquest (st : GameState) (playerId : String)
    (armyCount : Int) : Option (ConquestResult × GameState) :=
  match st.pendingConquest with
  | none => some (.noPending, st)
  | some pc =>
    match st.getCurrentPlayer with
    | none => none
    | some cp =>
      if playerId != cp.id then some (.notYourConquest, st)
      else if armyCount < pc.minArmies || armyCount > pc.maxArmies then
        some (.invalidCount pc.minArmies pc.maxArmies, st)
      else
        match st.players.find? (fun p => p.id == playerId) with
        | none => none
        | some _player =>
          match pc.defenderId.bind
              (fun dId => st.players.find? (fun p => p.id == dId)) with
          | none => none
          | some defender =>
            match st.territories.find? (fun t => t.id == pc.fromTerritoryId) with
            | none => none
            | some _fromT =>
              match st.territories.find? (fun t => t.id == pc.toTerritoryId) with
              | none => none
              | some toT =>
                let st7 := conquestApply st pc playerId armyCount defender.id
                let finalEliminated := defenderEliminatedFlag st7 defender.id
                some (.completed toT.name finalEliminated,
                      { st7 with pendingConquest := none })

/-- The unit-type move of `GameEngine.processFortification` (and
`CombatSystem.moveArmies`): satisfy the requested army value with infantry
first, then cavalry in blocks of 3 (`Math.ceil(rem/3)` units, clamped by
availability), then artillery in blocks of 5.  Returns the updated source
and destination armies. -/
def moveUnits (src dst : Armies) (count : Int) : Armies × Armies :=
  let infantryToMove := min src.infantry count
  let (src1, dst1, rem1) :=
    if infantryToMove > 0 then
      ({ src with infantry := src.infantry - infantryToMove },
       { dst with infantry := dst.infantry + infantryToMove },
       count - infantryToMove)
    else (src, dst, count)
  let (src2, dst2, rem2) :=
    if rem1 > 0 then
      let cavalryToMove := min src1.cavalry ((rem1 + 2) / 3)
      if cavalryToMove > 0 then
        ({ src1 with cavalry := src1.cavalry - cavalryToMove },
         { dst1 with cavalry := dst1.cavalry + cavalryToMove },
         rem1 - cavalryToMove * 3)
      else (src1, dst1, rem1)
    else (src1, dst1, rem1)
  if rem2 > 0 then
    let artilleryToMove := min src2.artillery ((rem2 + 4) / 5)
    if artilleryToMove > 0 then
      ({ src2 with artillery := src2.artillery - artilleryToMove },
       { dst2 with artillery := dst2.artillery + artilleryToMove })
    else (src2, dst2)
  else (src2, dst2)

/-- The army-moving phase of `GameEngine.processFortification` once all
validations have passed: move the requested value with `moveUnits`, store
the two updated territories, and advance the phase. -/
def fortifyApply (st : GameState) (fromTerritoryId toTerritoryId : String)
    (armyCount : Int) (fromTerritory toTerritory : Territory) :
    Bool × GameState :=
  let (fromArmies, toArmies) :=
    moveUnits fromTerritory.armies toTerritory.armies armyCount
  let territories' :=
    updateFirst (fun t => t.id == fromTerritoryId)
      (fun t => { t with armies := fromArmies })
      (updateFirst (fun t => t.id == toTerritoryId)
        (fun t => { t with armies := toArmies }) st.territories)
  (true, ({ st with territories := territories' } : GameState).nextPhase)

/-- `GameEngine.processFortification(playerId, fromTerritoryId,
toTerritoryId, armyCount)`.  When the effective movement range (1 plus
event modifiers plus the improved-logistics bonus) exceeds 1, the source
performs no adjacency or path check at all — any two owned territories are
accepted. -/
def GameEngine.processFortification (st : GameState)
    (playerId fromTerritoryId toTerritoryId : String) (armyCount : Int) :
    Bool × GameState :=
  match st.players.find? (fun p => p.id == playerId) with
  | none => (false, st)
  | some player =>
    if !(isCurrentPlayerCheck st playerId) || st.phase != "fortification" then
      (false, st)
    else
      match st.territories.find? (fun t => t.id == fromTerritoryId),
            st.territories.find? (fun t => t.id == toTerritoryId) with
      | none, _ => (false, st)
      | _, none => (false, st)
      | some fromTerritory, some toTerritory =>
        if fromTerritory.occupyingPlayer != some playerId ||
           toTerritory.occupyingPlayer != some playerId then (false, st)
        else
          let movementRange : Int := 1 +
            (match st.eventsManager with
             | some m => m.getMovementModifiers playerId
             | none => 0)
          let movementRange :=
            if player.technologies.contains "improved-logistics" then
              movementRange + 1
            else movementRange
          if movementRange == 1 && !(fromTerritory.isAdjacentTo toTerritoryId) then
            (false, st)
          else if fromTerritory.getTotalArmies ≤ armyCount then (false, st)
          else
            fortifyApply st fromTerritoryId toTerritoryId armyCount
              fromTerritory toTerritory

/-- `GameState.isValidCardSet(cards)`: exactly three cards forming either
three of one type or one of each, with wild cards substituting freely.
`maxSame` renders `Math.max(...Object.values(typeCounts).filter(c => c <= 3))`
(every count is ≤ 3 when three cards are checked). -/
def GameState.isValidCardSet (cards : List Card) : Bool :=
  if cards.length != 3 then false
  else
    let types := cards.map (fun c => c.type)
    let wildCount := types.count "wild"
    let maxSame := (types.eraseDups.map (fun t => types.count t)).foldl max 0
    if maxSame + wildCount ≥ 3 then true
    else
      let uniqueTypes := (types.eraseDups.filter (fun t => t != "wild")).length
      uniqueTypes + wildCount ≥ 3

/-- `GameState.calculateSetNumber()`: one more than the number of
`card-trade` entries in the event log. -/
def GameState.calculateSetNumber (st : GameState) : Int :=
  Int.ofNat (st.eventLog.filter (fun e => e.type == "card-trade")).length + 1

/-- `GameState.calculateArmiesForSet(setNumber)`: the escalating reward
schedule 4, 6, 8, 10, 12, 15, then +5 per further set. -/
def GameState.calculateArmiesForSet (setNumber : Int) : Int :=
  if setNumber ≤ 1 then 4
  else if setNumber = 2 then 6
  else if setNumber = 3 then 8
  else if setNumber = 4 then 10
  else if setNumber = 5 then 12
  else if setNumber = 6 then 15
  else 15 + (setNumber - 6) * 5

/-- Result object of `GameState.processCardTrade`. -/
inductive TradeResult
  | failure (error : String)
  | ok (armies : Int) (territoryBonuses : List String) (setNumber : Int)
deriving DecidableEq, Repr

/-- Whether a trade result is a success. -/
def TradeResult.isOk : TradeResult → Bool
  | .ok _ _ _ => true
  | .failure _ => false

/-- `GameState.processCardTrade(playerId, cardIds)` from the enhanced
GameState: validate player/turn/phase, look up each requested card id in the
player's hand, validate the set, compute the reward (base schedule plus +2
per owned associated territory), remove every card whose id is in `cardIds`
from the hand, append the looked-up cards to the discard pile, and log a
`card-trade` event. -/
def GameState.processCardTrade (st : GameState) (playerId : String)
    (cardIds : List String) : TradeResult × GameState :=
  match st.players.find? (fun p => p.id == playerId) with
  | none => (.failure "Invalid player", st)
  | some player =>
    if player.eliminated then (.failure "Invalid player", st)
    else if !(isCurrentPlayerCheck st playerId) || st.phase != "reinforcement" then
      (.failure "Not your turn or phase", st)
    else
      let cardsToTrade := cardIds.map
        (fun cid => player.cards.find? (fun c => c.id == cid))
      if cardsToTrade.contains none || cardsToTrade.length != 3 then
        (.failure "Invalid cards", st)
      else
        let cards := cardsToTrade.reduceOption
        if !(GameState.isValidCardSet cards) then (.failure "Not a valid set", st)
        else
          let setNumber := st.calculateSetNumber
          let baseArmies := GameState.calculateArmiesForSet setNumber
          let (armies, territoryBonuses) := cards.foldl
            (fun (acc : Int × List String) c =>
              match c.territoryId with
              | none => acc
              | some tid =>
                match st.territories.find? (fun t => t.id == tid) with
                | some t =>
                  if t.occupyingPlayer == some playerId then
                    (acc.1 + 2, acc.2 ++ [t.name])
                  else acc
                | none => acc)
            (baseArmies, [])
          let players' := updateFirst (fun p => p.id == playerId)
            (fun p => { p with cards := p.cards.filter (fun c => !(cardIds.contains c.id)) })
            st.players
          let log' := st.eventLog ++ [{ type := "card-trade", playerId := some playerId }]
          let st' := { st with players := players',
                               discardPile := st.discardPile ++ cards,
                               eventLog := log' }
          (.ok armies territoryBonuses setNumber, st')

/-- The JSON-representable snapshot produced by `GameState.serialize()` in
`models.js`.  The field list mirrors the object literal in the source;
note that it has no pending-conquest and no events-manager field. -/
structure SerializedState where
  config : Config
  players : List Player
  territories : List Territory
  continents : List Continent
  cardDeck : List Card
  discardPile : List Card
  currentPlayerIndex : Nat
  phase : String
  turn : Int
  gameOver : Bool
  winner : Option String
  victoryType : Option String
  eventLog : List LogEvent
  activeEvents : List ActiveEvent
  cardAwarded : Bool
deriving DecidableEq, Repr

/-- `GameState.serialize()`: copy the listed fields (players and territories
are mapped field-by-field to plain objects, which is the identity in this
embedding; the winner reference becomes the winner's id). -/
def GameState.serialize (st : GameState) : SerializedState :=
  { config := st.config
    players := st.players.map (fun p =>
      { id := p.id, name := p.name, color := p.color,
        territories := p.territories, cards := p.cards,
        resources := p.resources, technologies := p.technologies,
        allies := p.allies, eliminated := p.eliminated,
        victoryProgress := p.victoryProgress })
    territories := st.territories.map (fun t =>
      { id := t.id, name := t.name,
        adjacentTerritories := t.adjacentTerritories,
        continent := t.continent, occupyingPlayer := t.occupyingPlayer,
        armies := t.armies, resources := t.resources, features := t.features })
    continents := st.continents.map (fun c =>
      { id := c.id, name := c.name, territories := c.territories,
        bonusArmies := c.bonusArmies })
    cardDeck := st.cardDeck
    discardPile := st.discardPile
    currentPlayerIndex := st.currentPlayerIndex
    phase := st.phase
    turn := st.turn
    gameOver := st.gameOver
    winner := st.winner
    victoryType := st.victoryType
    eventLog := st.eventLog
    activeEvents := st.activeEvents
    cardAwarded := st.cardAwarded }

/-- `GameState.deserialize(data)`: rebuild players and territories from the
plain objects, restore the scalar fields, and re-link the winner by id.
The constructor never initialises `pendingConquest`, `deserialize` never
restores it, and no events manager is recreated, so both come back empty.
(The `|| []` defaults in the source only apply to absent fields; a present
array is truthy in JavaScript and restored as-is.) -/
def GameState.deserialize (data : SerializedState) : GameState :=
  let players := data.players.map (fun pd =>
    { id := pd.id, name := pd.name, color := pd.color,
      territories := pd.territories, cards := pd.cards,
      resources := pd.resources, technologies := pd.technologies,
      allies := pd.allies, eliminated := pd.eliminated,
      victoryProgress := pd.victoryProgress : Player })
  let territories := data.territories.map (fun td =>
    { id := td.id, name := td.name,
      adjacentTerritories := td.adjacentTerritories,
      continent := td.continent, occupyingPlayer := td.occupyingPlayer,
      armies := td.armies, resources := td.resources,
      features := td.features : Territory })
  let continents := data.continents.map (fun cd =>
    { id := cd.id, name := cd.name, territories := cd.territories,
      bonusArmies := cd.bonusArmies : Continent })
  { config := data.config
    players := players
    territories := territories
    continents := continents
    cardDeck := data.cardDeck
    discardPile := data.discardPile
    currentPlayerIndex := data.currentPlayerIndex
    phase := data.phase
    turn := data.turn
    gameOver := data.gameOver
    winner := (data.winner.bind (fun w => players.find? (fun p => p.id == w))).map
      (fun p => p.id)
    victoryType := data.victoryType
    eventLog := data.eventLog
    activeEvents := data.activeEvents
    cardAwarded := data.cardAwarded
    pendingConquest := none
    eventsManager := none }

/-- Per-id card count, the notion of card multiset used by the
card-conservation properties. -/
def countCardId (cid : String) (cs : List Card) : Nat :=
  cs.countP (fun c => c.id == cid)

/-- Id-to-owner projection of a territory list, used to state that an
operation changes no ownership. -/
def territoryOwners (ts : List Territory) : List (String × Option String) :=
  ts.map (fun t => (t.id, t.occupyingPlayer))

/-- The card-set reward schedule as worded by the specification: sets 1..6
award 4, 6, 8, 10, 12, 15 armies and every later set awards 5 more than
`15` per step (set N ≥ 7 awards `15 + 5*(N-6)`).  This definition follows
the spec's words, to be compared with `GameState.calculateArmiesForSet`. -/
def specCardSetReward (n : Int) : Int :=
  if n ≥ 7 then 15 + 5 * (n - 6)
  else [4, 6, 8, 10, 12, 15].getD (n - 1).toNat 0

/-- Configuration used by the concrete test states (resources disabled so
start-of-turn production is a no-op, events enabled). -/
def cfg0 : Config := ⟨true, false, true, true, ["military"]⟩

/-- A bare player fixture owning the given territories. -/
def mkPlayer (id : String) (terrs : List String) : Player :=
  ⟨id, id, "red", terrs, [], ⟨0, 0, 0, 0⟩, [], [], false, ⟨0, 0⟩⟩

/-- A bare territory fixture. -/
def mkTerritory (id : String) (adj : List String) (owner : Option String)
    (a : Armies) : Territory :=
  ⟨id, id, adj, "c1", owner, a, [], ⟨false, false, false⟩⟩

/-- A game state fixture over the given roster, map and phase; player 0 is
current, turn 1, nothing else set. -/
def baseState (players : List Player) (terrs : List Territory)
    (ph : String) : GameState :=
  ⟨cfg0, players, terrs, [], [], [], 0, ph, 1, false, none, none, [], [], false,
   none, none⟩

/-- A state in the attack phase with a pending conquest (of territory C)
still outstanding while territory B can be attacked from A. -/
def attackPendingState : GameState :=
  { baseState [mkPlayer "p1" ["A"], mkPlayer "p2" ["B", "C"]]
      [mkTerritory "A" ["B"] (some "p1") ⟨3, 0, 0⟩,
       mkTerritory "B" ["A"] (some "p2") ⟨3, 0, 0⟩,
       mkTerritory "C" [] (some "p2") ⟨1, 0, 0⟩] "attack"
    with pendingConquest := some ⟨"A", "C", 1, 2, some "p2"⟩ }

/-- A reinforcement-phase state where player p1 owns T1 but not T2. -/
def reinforceState : GameState :=
  baseState [mkPlayer "p1" ["T1"], mkPlayer "p2" ["T2"]]
    [mkTerritory "T1" [] (some "p1") ⟨1, 0, 0⟩,
     mkTerritory "T2" [] (some "p2") ⟨1, 0, 0⟩] "reinforcement"

/-- A state with a pending conquest of B whose attacker territory A holds
its army value in cavalry (1 infantry + 2 cavalry = value 7, so
`maxArmies = 6`). -/
def conquestCavState : GameState :=
  { baseState [mkPlayer "p1" ["A"], mkPlayer "p2" ["B", "C"]]
      [mkTerritory "A" ["B"] (some "p1") ⟨1, 2, 0⟩,
       mkTerritory "B" ["A"] (some "p2") ⟨0, 0, 0⟩,
       mkTerritory "C" [] (some "p2") ⟨1, 0, 0⟩] "attack"
    with pendingConquest := some ⟨"A", "B", 3, 6, some "p2"⟩ }

/-- A card held by player p1 in `tradeState`. -/
def cardA : Card := ⟨"cardA", "infantry", none⟩

/-- A reinforcement-phase state where player p1 holds the single card
`cardA`. -/
def tradeState : GameState :=
  { baseState [mkPlayer "p1" ["T1"], mkPlayer "p2" ["T2"]]
      [mkTerritory "T1" [] (some "p1") ⟨1, 0, 0⟩,
       mkTerritory "T2" [] (some "p2") ⟨1, 0, 0⟩] "reinforcement"
    with players := [{ mkPlayer "p1" ["T1"] with cards := [cardA] },
                     mkPlayer "p2" ["T2"]] }

/-- An attack-phase state whose defender territory B holds its whole army
value in one cavalry unit (army value 3). -/
def attackCavDefState : GameState :=
  baseState [mkPlayer "p1" ["A"], mkPlayer "p2" ["B"]]
    [mkTerritory "A" ["B"] (some "p1") ⟨3, 0, 0⟩,
     mkTerritory "B" ["A"] (some "p2") ⟨0, 1, 0⟩] "attack"

/-- A fortification-phase state where p1 owns A and B, which are not
adjacent and are linked only through the enemy-held territory C, while an
active movement event raises p1's movement range to 2. -/
def fortifyGapState : GameState :=
  { baseState [mkPlayer "p1" ["A", "B"], mkPlayer "p2" ["C"]]
      [mkTerritory "A" ["C"] (some "p1") ⟨5, 0, 0⟩,
       mkTerritory "B" ["C"] (some "p1") ⟨1, 0, 0⟩,
       mkTerritory "C" ["A", "B"] (some "p2") ⟨1, 0, 0⟩] "fortification"
    with eventsManager := some ⟨[⟨"movement", "p1", some 1⟩]⟩ }

/-- A state matching the spec's conquest-range example: a pending conquest
created by a 3-dice attack whose attacker territory holds army value 6
(`minArmies = 3`, `maxArmies = 5`). -/
def conquestRangeState : GameState :=
  { baseState [mkPlayer "p1" ["A"], mkPlayer "p2" ["B", "C"]]
      [mkTerritory "A" ["B"] (some "p1") ⟨6, 0, 0⟩,
       mkTerritory "B" ["A"] (some "p2") ⟨0, 0, 0⟩,
       mkTerritory "C" [] (some "p2") ⟨1, 0, 0⟩] "attack"
    with pendingConquest := some ⟨"A", "B", 3, 5, some "p2"⟩ }

/-- Army value of the territory with the given id (0 when absent), used to
state conservation across an operation. -/
def territoryArmyValue (st : GameState) (i : String) : Int :=
  ((st.territories.find? (fun t => t.id == i)).map Territory.getTotalArmies).getD 0

/-- Three distinct infantry cards for the distinct-id trade fixture. -/
def card1 : Card := ⟨"card1", "infantry", none⟩

/-- Second distinct infantry card. -/
def card2 : Card := ⟨"card2", "infantry", none⟩

/-- Third distinct infantry card. -/
def card3 : Card := ⟨"card3", "infantry", none⟩

/-- A reinforcement-phase state where player p1 holds three distinct
infantry cards. -/
def distinctTradeState : GameState :=
  { baseState [mkPlayer "p1" ["T1"], mkPlayer "p2" ["T2"]]
      [mkTerritory "T1" [] (some "p1") ⟨1, 0, 0⟩,
       mkTerritory "T2" [] (some "p2") ⟨1, 0, 0⟩] "reinforcement"
    with players := [{ mkPlayer "p1" ["T1"] with cards := [card1, card2, card3] },
                     mkPlayer "p2" ["T2"]] }

/-- Inserting into a descending-sorted list preserves length. -/
lemma insertDesc_length (x : Int) (l : List Int) :
    (insertDesc x l).length = l.length + 1 := by
  induction l with
  | nil => rfl
  | cons y ys ih =>
    simp only [insertDesc]
    split
    · simp
    · simp [ih]

/-- Descending sort preserves length. -/
lemma sortDesc_length (l : List Int) : (sortDesc l).length = l.length := by
  induction l with
  | nil => rfl
  | cons x xs ih => simp [sortDesc, List.foldr_cons, insertDesc_length]
                    simpa [sortDesc] using ih

/-- The paired comparison loop counts, over the index-paired dice, how many
pairs the attacker loses (value not strictly greater) and how many the
defender loses (attacker strictly greater). -/
lemma compareDice_eq_countP (a d : List Int) :
    compareDice a d
      = ((a.zip d).countP (fun p => decide (p.1 ≤ p.2)),
         (a.zip d).countP (fun p => decide (p.2 < p.1))) := by
  induction a generalizing d with
  | nil => cases d <;> simp [compareDice]
  | cons x xs ih =>
    cases d with
    | nil => simp [compareDice]
    | cons y ys =>
      simp only [compareDice, ih, List.zip_cons_cons, List.countP_cons]
      by_cases h : x > y
      · have h1 : ¬ x ≤ y := by omega
        simp [h, h1]
      · have h1 : x ≤ y := by omega
        have h2 : ¬ y < x := by omega
        simp [h, h1, h2]

/-- The paired comparison loop assigns exactly one casualty per pair. -/
lemma compareDice_sum (a d : List Int) :
    (compareDice a d).1 + (compareDice a d).2 = min a.length d.length := by
  induction a generalizing d with
  | nil => cases d <;> simp [compareDice]
  | cons x xs ih =>
    cases d with
    | nil => simp [compareDice]
    | cons y ys =>
      simp only [compareDice]
      cases hc : compareDice xs ys with
      | mk al dl =>
        have hih := ih ys
        rw [hc] at hih
        simp only at hih
        by_cases h : x > y <;> simp [h, List.length_cons] <;> omega

/-- C6 (confirmed): in an attack resolution over the descending-sorted dice
lists, pairing index-by-index up to the shorter count, every pair in which
the attacker's value is strictly greater than the defender's costs the
defender one casualty, every other pair — exact ties included — costs the
attacker one casualty, and the two totals together equal the number of
pairs compared. -/
theorem attack_dice_pairing (attackRollsRaw defenseRollsRaw : List Int) :
    (compareDice (sortDesc attackRollsRaw) (sortDesc defenseRollsRaw)).2
      = (((sortDesc attackRollsRaw).zip (sortDesc defenseRollsRaw)).countP
          (fun p => decide (p.2 < p.1))) ∧
    (compareDice (sortDesc attackRollsRaw) (sortDesc defenseRollsRaw)).1
      = (((sortDesc attackRollsRaw).zip (sortDesc defenseRollsRaw)).countP
          (fun p => decide (p.1 ≤ p.2))) ∧
    (compareDice (sortDesc attackRollsRaw) (sortDesc defenseRollsRaw)).1
        + (compareDice (sortDesc attackRollsRaw) (sortDesc defenseRollsRaw)).2
      = min attackRollsRaw.length defenseRollsRaw.length := by
  refine ⟨?_, ?_, ?_⟩
  · rw [compareDice_eq_countP]
  · rw [compareDice_eq_countP]
  · rw [compareDice_sum, sortDesc_length, sortDesc_length]

/-- C9 (confirmed): for every set number N ≥ 1 the engine's card-set reward
equals the specification's schedule — 4, 6, 8, 10, 12, 15 for sets 1..6 and
15 + 5·(N−6) from set 7 on. -/
theorem card_set_reward_schedule (n : Int) (h : 1 ≤ n) :
    GameState.calculateArmiesForSet n = specCardSetReward n := by
  unfold GameState.calculateArmiesForSet specCardSetReward
  by_cases h7 : n ≥ 7
  · rw [if_neg (by omega), if_neg (by omega), if_neg (by omega),
        if_neg (by omega), if_neg (by omega), if_neg (by omega), if_pos h7]
    ring
  · have : n = 1 ∨ n = 2 ∨ n = 3 ∨ n = 4 ∨ n = 5 ∨ n = 6 := by omega
    rcases this with rfl | rfl | rfl | rfl | rfl | rfl <;> decide

/-- Witness for C9: the theorem applied at set number 7 (which the spec
says awards 20). -/
theorem card_set_reward_schedule_witness :
    GameState.calculateArmiesForSet 7 = specCardSetReward 7 ∧
    specCardSetReward 7 = 20 :=
  ⟨card_set_reward_schedule 7 (by norm_num), by decide⟩

/-- Counterexample to C1: in `attackPendingState` a pending conquest is
outstanding, yet `processAttack` returns a success result (not a failure)
and mutates the defending territory's armies. -/
theorem attack_during_pending_counterexample :
    attackPendingState.pendingConquest = some ⟨"A", "C", 1, 2, some "p2"⟩ ∧
    (GameEngine.processAttack attackPendingState "p1" "A" "B" 1 [6] [1, 1]).1
      = AttackResult.success [6] [1, 1] 0 1 false ∧
    ((GameEngine.processAttack attackPendingState "p1" "A" "B" 1 [6] [1, 1]).2.territories.map
        (fun t => t.armies.infantry)) = [3, 2, 1] ∧
    (attackPendingState.territories.map (fun t => t.armies.infantry)) = [3, 3, 1] := by
  decide

/-- Counterexample to C2: `processReinforcement` over the map
`{T1: 2, T2: 1}` (T2 unowned) returns failure but has already added the two
armies to T1, so the failed call mutated the state. -/
theorem reinforcement_partial_mutation_counterexample :
    (GameEngine.processReinforcement reinforceState "p1" [("T1", 2), ("T2", 1)]).1
      = false ∧
    (GameEngine.processReinforcement reinforceState "p1" [("T1", 2), ("T2", 1)]).2
      ≠ reinforceState ∧
    ((GameEngine.processReinforcement reinforceState "p1" [("T1", 2), ("T2", 1)]).2.territories.map
        (fun t => t.armies.infantry)) = [3, 1] := by
  decide

/-- C3 (code bug): `completeConquest` with `armyCount = 6`, inside the
advertised range [3, 6] of `conquestCavState`, succeeds but leaves the
attacking territory A with −5 infantry: the source subtracts the moved army
*value* from the infantry *count*, which is negative whenever the
attacker's value is carried by cavalry or artillery. -/
theorem conquest_negative_infantry :
    conquestCavState.pendingConquest = some ⟨"A", "B", 3, 6, some "p2"⟩ ∧
    ((GameEngine.completeConquest conquestCavState "p1" 6).map
        (fun r => r.1)) = some (ConquestResult.completed "B" false) ∧
    ((GameEngine.completeConquest conquestCavState "p1" 6).map
        (fun r => r.2.territories.map (fun t => t.armies.infantry)))
      = some [-5, 6, 1] ∧
    (-5 : Int) < 0 := by
  decide

/-- Counterexample to C4: trading the id list `[cardA, cardA, cardA]`
(the same id three times) succeeds and pushes three copies of the single
card `cardA` onto the discard pile while removing only one from the hand,
breaking the card-conservation invariant. -/
theorem duplicate_card_trade_counterexample :
    (GameState.processCardTrade tradeState "p1" ["cardA", "cardA", "cardA"]).1.isOk
      = true ∧
    countCardId "cardA" (playerCards tradeState.players "p1")
        + countCardId "cardA" tradeState.discardPile = 1 ∧
    countCardId "cardA"
        (playerCards
          (GameState.processCardTrade tradeState "p1"
            ["cardA", "cardA", "cardA"]).2.players "p1")
        + countCardId "cardA"
          (GameState.processCardTrade tradeState "p1"
            ["cardA", "cardA", "cardA"]).2.discardPile = 3 := by
  decide

/-- Counterexample to C5: an attack whose single defender casualty is a
cavalry unit removes army value 3 while reporting 1 casualty, so the sum
of the two territories' army values before (6) differs from the sum after
(3) plus the reported casualties (1). -/
theorem attack_value_not_conserved_counterexample :
    ((attackCavDefState.territories.map (fun t => t.getTotalArmies)).sum = 6) ∧
    (GameEngine.processAttack attackCavDefState "p1" "A" "B" 1 [6] [1, 1]).1
      = AttackResult.success [6] [1, 1] 0 1 true ∧
    (((GameEngine.processAttack attackCavDefState "p1" "A" "B" 1 [6] [1, 1]).2.territories.map
        (fun t => t.getTotalArmies)).sum = 3) ∧
    (3 : Int) + (0 + 1) ≠ 6 := by
  decide

/-- Counterexample to C8: serialising and deserialising a state with an
outstanding pending conquest loses the pending-conquest record. -/
theorem roundtrip_drops_pending_counterexample :
    attackPendingState.pendingConquest = some ⟨"A", "C", 1, 2, some "p2"⟩ ∧
    (GameState.deserialize (GameState.serialize attackPendingState)).pendingConquest
      = none := by
  decide

/-- C10 (code bug): in `fortifyGapState` the movement range is 2 (an active
movement event), territories A and B are not adjacent and every route from
A to B passes through the enemy-held territory C — yet `processFortification`
succeeds and moves the armies, because the source performs no path check at
all when the range exceeds 1. -/
theorem fortify_no_path_check :
    (GameEngine.processFortification fortifyGapState "p1" "A" "B" 2).1 = true ∧
    ((fortifyGapState.territories.find? (fun t => t.id == "A")).map
        (fun t => t.isAdjacentTo "B")) = some false ∧
    ((fortifyGapState.territories.find? (fun t => t.id == "A")).map
        (fun t => t.adjacentTerritories)) = some ["C"] ∧
    ((fortifyGapState.territories.find? (fun t => t.id == "C")).map
        (fun t => t.occupyingPlayer)) = some (some "p2") ∧
    ((GameEngine.processFortification fortifyGapState "p1" "A" "B" 2).2.territories.map
        (fun t => t.armies.infantry)) = [3, 3, 1] := by
  decide

/-- The outcome component of `attackApply` does not depend on the state's
pending-conquest field. -/
lemma attackApply_fst_pending (st : GameState) (p : Option PendingConquest)
    (fromTerritoryId toTerritoryId : String) (attackDice : Int)
    (fromTerritory toTerritory : Territory) (ar dr : List Int) :
    (attackApply { st with pendingConquest := p } fromTerritoryId toTerritoryId
        attackDice fromTerritory toTerritory ar dr).1
      = (attackApply st fromTerritoryId toTerritoryId attackDice
          fromTerritory toTerritory ar dr).1 := by
  simp only [attackApply]
  split <;> rfl

/-- C1 (corrected): `processAttack` never consults the pending-conquest
field — its returned result (success or failure, dice, losses) is identical
whatever `pendingConquest` holds, so an attack is never rejected with a
StateConflict while a PendingConquest is outstanding.  (At most one record
exists only because `pendingConquest` is a single field that a conquering
attack overwrites.) -/
theorem attack_ignores_pending (st : GameState) (p : Option PendingConquest)
    (playerId fromTerritoryId toTerritoryId : String) (attackDice : Int)
    (attackRollsRaw defenseRollsRaw : List Int) :
    (GameEngine.processAttack { st with pendingConquest := p }
        playerId fromTerritoryId toTerritoryId attackDice
        attackRollsRaw defenseRollsRaw).1
      = (GameEngine.processAttack st
          playerId fromTerritoryId toTerritoryId attackDice
          attackRollsRaw defenseRollsRaw).1 := by
  have h1 : ({ st with pendingConquest := p } : GameState).players = st.players := rfl
  have h2 : ({ st with pendingConquest := p } : GameState).phase = st.phase := rfl
  have h3 : ({ st with pendingConquest := p } : GameState).territories
      = st.territories := rfl
  have h4 : isCurrentPlayerCheck { st with pendingConquest := p } playerId
      = isCurrentPlayerCheck st playerId := rfl
  unfold GameEngine.processAttack
  rw [h1, h2, h3, h4]
  repeat' split
  all_goals first
    | rfl
    | apply attackApply_fst_pending

/-- Rebuilding a player list field-by-field is the identity. -/
lemma map_player_fields (l : List Player) :
    l.map (fun pd =>
      ({ id := pd.id, name := pd.name, color := pd.color,
         territories := pd.territories, cards := pd.cards,
         resources := pd.resources, technologies := pd.technologies,
         allies := pd.allies, eliminated := pd.eliminated,
         victoryProgress := pd.victoryProgress } : Player)) = l := by
  induction l with
  | nil => rfl
  | cons x xs ih => simp only [List.map_cons, ih]

/-- Rebuilding a territory list field-by-field is the identity. -/
lemma map_territory_fields (l : List Territory) :
    l.map (fun td =>
      ({ id := td.id, name := td.name,
         adjacentTerritories := td.adjacentTerritories,
         continent := td.continent, occupyingPlayer := td.occupyingPlayer,
         armies := td.armies, resources := td.resources,
         features := td.features } : Territory)) = l := by
  induction l with
  | nil => rfl
  | cons x xs ih => simp only [List.map_cons, ih]

/-- C8 (corrected): for every game state, `deserialize(serialize(state))`
reproduces the players (hence ownership sets and hands), the territories
(hence per-territory ownership and army counts), the phase, the turn
counter, the current player index and the active events — but the
round-tripped state's pending conquest is always `none`, because
`serialize` omits the record and `deserialize` never restores it. -/
theorem serialize_roundtrip (st : GameState) :
    (GameState.deserialize (GameState.serialize st)).players = st.players ∧
    (GameState.deserialize (GameState.serialize st)).territories = st.territories ∧
    (GameState.deserialize (GameState.serialize st)).phase = st.phase ∧
    (GameState.deserialize (GameState.serialize st)).turn = st.turn ∧
    (GameState.deserialize (GameState.serialize st)).currentPlayerIndex
      = st.currentPlayerIndex ∧
    (GameState.deserialize (GameState.serialize st)).activeEvents = st.activeEvents ∧
    (GameState.deserialize (GameState.serialize st)).pendingConquest = none := by
  unfold GameState.deserialize GameState.serialize
  refine ⟨?_, ?_, rfl, rfl, rfl, rfl, rfl⟩
  · simp only [map_player_fields]
  · simp only [map_territory_fields]

/-- Finding by the updated predicate after `updateFirst` returns the
updated element. -/
lemma find?_updateFirst_self {α : Type} (p : α → Bool) (f : α → α) (l : List α)
    (hp : ∀ x, p (f x) = p x) :
    (updateFirst p f l).find? p = (l.find? p).map f := by
  induction l with
  | nil => rfl
  | cons x xs ih =>
    by_cases h : p x
    · simp [updateFirst, h, List.find?_cons, hp x]
    · simp [updateFirst, h, List.find?_cons, ih]

/-- `updateFirst` does not disturb a `find?` by a predicate that the
updated element fails before and after the update. -/
lemma find?_updateFirst_other {α : Type} (p q : α → Bool) (f : α → α) (l : List α)
    (hq : ∀ x, q (f x) = q x) (hpq : ∀ x, p x = true → q x = false) :
    (updateFirst p f l).find? q = l.find? q := by
  induction l with
  | nil => rfl
  | cons x xs ih =>
    by_cases h : p x
    · have h1 : q x = false := hpq x h
      have h2 : q (f x) = false := by rw [hq x]; exact h1
      simp [updateFirst, h, List.find?_cons, h1, h2]
    · by_cases h3 : q x
      · simp [updateFirst, h, List.find?_cons, h3]
      · simp [updateFirst, h, List.find?_cons, h3, ih]

/-- An update that preserves each territory's id and owner preserves the
ownership projection. -/
lemma territoryOwners_updateFirst (p : Territory → Bool) (f : Territory → Territory)
    (l : List Territory)
    (h : ∀ t, (f t).id = t.id ∧ (f t).occupyingPlayer = t.occupyingPlayer) :
    territoryOwners (updateFirst p f l) = territoryOwners l := by
  induction l with
  | nil => rfl
  | cons x xs ih =>
    by_cases hx : p x
    · simp [updateFirst, hx, territoryOwners, (h x).1, (h x).2]
    · simp [updateFirst, hx, territoryOwners] at ih ⊢
      exact ih

/-- Advancing the player never touches the territories. -/
lemma nextPlayer_territories (st : GameState) :
    st.nextPlayer.territories = st.territories := by
  unfold GameState.nextPlayer
  repeat' split
  all_goals rfl

/-- Resource production never touches the territories. -/
lemma calcProd_territories (st : GameState) :
    st.calculateResourceProduction.territories = st.territories := by
  unfold GameState.calculateResourceProduction
  repeat' split
  all_goals rfl

/-- Advancing the phase never touches the territories. -/
lemma nextPhase_territories (st : GameState) :
    st.nextPhase.territories = st.territories := by
  simp only [GameState.nextPhase]
  split
  · rfl
  · split
    · rfl
    · split
      · split
        · rw [calcProd_territories, nextPlayer_territories]
        · rw [nextPlayer_territories]
      · rfl

/-- Moving units between two armies preserves their summed army value. -/
lemma moveUnits_total (src dst : Armies) (count : Int) :
    (moveUnits src dst count).1.total + (moveUnits src dst count).2.total
      = src.total + dst.total := by
  simp only [moveUnits]
  repeat' split
  all_goals (simp [Armies.total]; try ring)

/-- When the infantry count covers the losses, clamped casualty removal
subtracts exactly the loss count from the army value. -/
lemma applyLosses_total_of_infantry (a : Armies) (losses : Int)
    (h : losses ≤ a.infantry) :
    (applyLosses a losses).total = a.total - losses := by
  simp only [applyLosses]
  rw [min_eq_right h]
  simp [Armies.total]
  ring

/-- Setting the territory list of a state reads back as set. -/
lemma territories_set (st : GameState) (ts : List Territory) :
    ({ st with territories := ts } : GameState).territories = ts := rfl

/-- A territory found by id carries that id. -/
lemma find?_id_eq {l : List Territory} {i : String} {t : Territory}
    (h : l.find? (fun t => t.id == i) = some t) : t.id = i := by
  have := List.find?_some h
  simpa [beq_iff_eq] using this

/-- A territory whose id equals `i` has an id different from `j ≠ i`. -/
lemma beq_id_false_of_ne {i j : String} (x : Territory) (hne : i ≠ j)
    (hx : (x.id == i) = true) : (x.id == j) = false := by
  rw [beq_iff_eq] at hx
  rw [beq_eq_false_iff_ne, hx]
  exact hne

/-- Lookups by the two (distinct) updated ids after the attack/fortify
double territory update. -/
lemma find?_double_update (l : List Territory) (i j : String) (ai aj : Armies)
    (hne : i ≠ j) :
    ((updateFirst (fun t => t.id == i) (fun t => { t with armies := ai })
        (updateFirst (fun t => t.id == j) (fun t => { t with armies := aj }) l)).find?
      (fun t => t.id == i)
      = (l.find? (fun t => t.id == i)).map (fun t => { t with armies := ai })) ∧
    ((updateFirst (fun t => t.id == i) (fun t => { t with armies := ai })
        (updateFirst (fun t => t.id == j) (fun t => { t with armies := aj }) l)).find?
      (fun t => t.id == j)
      = (l.find? (fun t => t.id == j)).map (fun t => { t with armies := aj })) := by
  constructor
  · rw [find?_updateFirst_self (fun (t : Territory) => t.id == i)
        (fun (t : Territory) => { t with armies := ai }) _ (fun x => rfl)]
    rw [find?_updateFirst_other (fun (t : Territory) => t.id == j)
        (fun (t : Territory) => t.id == i)
        (fun (t : Territory) => { t with armies := aj }) _
        (fun x => rfl) (fun x hx => beq_id_false_of_ne x (fun hc => hne hc.symm) hx)]
  · rw [find?_updateFirst_other (fun (t : Territory) => t.id == i)
        (fun (t : Territory) => t.id == j)
        (fun (t : Territory) => { t with armies := ai }) _
        (fun x => rfl) (fun x hx => beq_id_false_of_ne x hne hx)]
    rw [find?_updateFirst_self (fun (t : Territory) => t.id == j)
        (fun (t : Territory) => { t with armies := aj }) _ (fun x => rfl)]

/-- The army-moving phase of a fortification conserves the summed army
value of the two territories. -/
lemma fortify_conserves (st : GameState) (fromTerritoryId toTerritoryId : String)
    (armyCount : Int) (fromTerritory toTerritory : Territory)
    (hne : fromTerritoryId ≠ toTerritoryId)
    (hf : st.territories.find? (fun t => t.id == fromTerritoryId) = some fromTerritory)
    (ht : st.territories.find? (fun t => t.id == toTerritoryId) = some toTerritory) :
    territoryArmyValue (fortifyApply st fromTerritoryId toTerritoryId armyCount
        fromTerritory toTerritory).2 fromTerritoryId
      + territoryArmyValue (fortifyApply st fromTerritoryId toTerritoryId armyCount
          fromTerritory toTerritory).2 toTerritoryId
      = territoryArmyValue st fromTerritoryId + territoryArmyValue st toTerritoryId := by
  cases hmu : moveUnits fromTerritory.armies toTerritory.armies armyCount with
  | mk fa ta =>
    simp only [fortifyApply, hmu]
    unfold territoryArmyValue
    rw [nextPhase_territories]
    dsimp only
    rw [(find?_double_update st.territories fromTerritoryId toTerritoryId fa ta hne).1,
        (find?_double_update st.territories fromTerritoryId toTerritoryId fa ta hne).2]
    rw [hf, ht]
    simp only [Option.map_some', Option.getD_some, Territory.getTotalArmies]
    have hmt := moveUnits_total fromTerritory.armies toTerritory.armies armyCount
    rw [hmu] at hmt
    simp only at hmt
    omega

/-- The combat phase of an attack conserves army value up to the reported
casualties whenever each side's infantry covers its losses. -/
lemma attack_conserves (st : GameState) (fromTerritoryId toTerritoryId : String)
    (attackDice : Int) (fromTerritory toTerritory : Territory)
    (ar dr : List Int)
    (hne : fromTerritoryId ≠ toTerritoryId)
    (hf : st.territories.find? (fun t => t.id == fromTerritoryId) = some fromTerritory)
    (ht : st.territories.find? (fun t => t.id == toTerritoryId) = some toTerritory)
    (hAL : Int.ofNat (compareDice (sortDesc ar) (sortDesc dr)).1
      ≤ fromTerritory.armies.infantry)
    (hDL : Int.ofNat (compareDice (sortDesc ar) (sortDesc dr)).2
      ≤ toTerritory.armies.infantry) :
    territoryArmyValue (attackApply st fromTerritoryId toTerritoryId attackDice
        fromTerritory toTerritory ar dr).2 fromTerritoryId
      + territoryArmyValue (attackApply st fromTerritoryId toTerritoryId attackDice
          fromTerritory toTerritory ar dr).2 toTerritoryId
      + Int.ofNat ((compareDice (sortDesc ar) (sortDesc dr)).1
          + (compareDice (sortDesc ar) (sortDesc dr)).2)
      = territoryArmyValue st fromTerritoryId + territoryArmyValue st toTerritoryId := by
  cases hcd : compareDice (sortDesc ar) (sortDesc dr) with
  | mk aL dL =>
    rw [hcd] at hAL hDL
    simp only at hAL hDL
    simp only [attackApply, hcd]
    split <;>
    · unfold territoryArmyValue
      dsimp only
      rw [(find?_double_update st.territories fromTerritoryId toTerritoryId
            (applyLosses fromTerritory.armies (Int.ofNat aL))
            (applyLosses toTerritory.armies (Int.ofNat dL)) hne).1,
          (find?_double_update st.territories fromTerritoryId toTerritoryId
            (applyLosses fromTerritory.armies (Int.ofNat aL))
            (applyLosses toTerritory.armies (Int.ofNat dL)) hne).2]
      rw [hf, ht]
      simp only [Option.map_some', Option.getD_some, Territory.getTotalArmies]
      rw [applyLosses_total_of_infantry _ _ hAL, applyLosses_total_of_infantry _ _ hDL]
      simp only [Int.ofNat_eq_coe, Nat.cast_add]
      omega

/-- C5 (corrected): army conservation holds for every fortification — the
summed army value of the two territories is unchanged (casualties 0) — and
for every attack in which each side's reported losses are covered by its
infantry count, where the sum before equals the sum after plus the reported
casualties.  (When a casualty falls on cavalry or artillery the equation
fails; see the counterexample.) -/
theorem army_value_conservation :
    (∀ (st : GameState) (fromTerritoryId toTerritoryId : String) (armyCount : Int)
        (fromTerritory toTerritory : Territory),
      fromTerritoryId ≠ toTerritoryId →
      st.territories.find? (fun t => t.id == fromTerritoryId) = some fromTerritory →
      st.territories.find? (fun t => t.id == toTerritoryId) = some toTerritory →
      territoryArmyValue (fortifyApply st fromTerritoryId toTerritoryId armyCount
          fromTerritory toTerritory).2 fromTerritoryId
        + territoryArmyValue (fortifyApply st fromTerritoryId toTerritoryId armyCount
            fromTerritory toTerritory).2 toTerritoryId
        = territoryArmyValue st fromTerritoryId + territoryArmyValue st toTerritoryId) ∧
    (∀ (st : GameState) (fromTerritoryId toTerritoryId : String) (attackDice : Int)
        (fromTerritory toTerritory : Territory) (ar dr : List Int),
      fromTerritoryId ≠ toTerritoryId →
      st.territories.find? (fun t => t.id == fromTerritoryId) = some fromTerritory →
      st.territories.find? (fun t => t.id == toTerritoryId) = some toTerritory →
      Int.ofNat (compareDice (sortDesc ar) (sortDesc dr)).1
        ≤ fromTerritory.armies.infantry →
      Int.ofNat (compareDice (sortDesc ar) (sortDesc dr)).2
        ≤ toTerritory.armies.infantry →
      territoryArmyValue (attackApply st fromTerritoryId toTerritoryId attackDice
          fromTerritory toTerritory ar dr).2 fromTerritoryId
        + territoryArmyValue (attackApply st fromTerritoryId toTerritoryId attackDice
            fromTerritory toTerritory ar dr).2 toTerritoryId
        + Int.ofNat ((compareDice (sortDesc ar) (sortDesc dr)).1
            + (compareDice (sortDesc ar) (sortDesc dr)).2)
        = territoryArmyValue st fromTerritoryId + territoryArmyValue st toTerritoryId) :=
  ⟨fun st f t n ft tt hne hf ht => fortify_conserves st f t n ft tt hne hf ht,
   fun st f t d ft tt ar dr hne hf ht hAL hDL =>
     attack_conserves st f t d ft tt ar dr hne hf ht hAL hDL⟩

/-- Witness for C5: the theorem applied to a concrete fortification (A→B in
`fortifyGapState`) and a concrete attack (A→B in `attackCavDefState` whose
single casualty falls on the attacker's infantry). -/
theorem army_value_conservation_witness :
    (territoryArmyValue (fortifyApply fortifyGapState "A" "B" 2
        (mkTerritory "A" ["C"] (some "p1") ⟨5, 0, 0⟩)
        (mkTerritory "B" ["C"] (some "p1") ⟨1, 0, 0⟩)).2 "A"
      + territoryArmyValue (fortifyApply fortifyGapState "A" "B" 2
          (mkTerritory "A" ["C"] (some "p1") ⟨5, 0, 0⟩)
          (mkTerritory "B" ["C"] (some "p1") ⟨1, 0, 0⟩)).2 "B"
      = territoryArmyValue fortifyGapState "A" + territoryArmyValue fortifyGapState "B") ∧
    (territoryArmyValue (attackApply attackCavDefState "A" "B" 1
        (mkTerritory "A" ["B"] (some "p1") ⟨3, 0, 0⟩)
        (mkTerritory "B" ["A"] (some "p2") ⟨0, 1, 0⟩) [1] [6, 6]).2 "A"
      + territoryArmyValue (attackApply attackCavDefState "A" "B" 1
          (mkTerritory "A" ["B"] (some "p1") ⟨3, 0, 0⟩)
          (mkTerritory "B" ["A"] (some "p2") ⟨0, 1, 0⟩) [1] [6, 6]).2 "B"
      + Int.ofNat ((compareDice (sortDesc [1]) (sortDesc [6, 6])).1
          + (compareDice (sortDesc [1]) (sortDesc [6, 6])).2)
      = territoryArmyValue attackCavDefState "A" + territoryArmyValue attackCavDefState "B") :=
  ⟨army_value_conservation.1 fortifyGapState "A" "B" 2
      (mkTerritory "A" ["C"] (some "p1") ⟨5, 0, 0⟩)
      (mkTerritory "B" ["C"] (some "p1") ⟨1, 0, 0⟩)
      (by decide) (by decide) (by decide),
   army_value_conservation.2 attackCavDefState "A" "B" 1
      (mkTerritory "A" ["B"] (some "p1") ⟨3, 0, 0⟩)
      (mkTerritory "B" ["A"] (some "p2") ⟨0, 1, 0⟩) [1] [6, 6]
      (by decide) (by decide) (by decide) (by decide) (by decide)⟩

/-- When the combat phase reduces the defender's army value to 0, a
pending conquest is opened with `minArmies` the dice count and `maxArmies`
the attacker's (post-casualty) army value minus 1, the result reports the
conquest, and no territory ownership changes. -/
lemma attack_opens_pending (st : GameState) (fromTerritoryId toTerritoryId : String)
    (attackDice : Int) (fromTerritory toTerritory : Territory) (ar dr : List Int)
    (hzero : (applyLosses toTerritory.armies
        (Int.ofNat (compareDice (sortDesc ar) (sortDesc dr)).2)).total = 0) :
    (attackApply st fromTerritoryId toTerritoryId attackDice fromTerritory toTerritory
        ar dr).2.pendingConquest
      = some ⟨fromTerritoryId, toTerritoryId, attackDice,
          (applyLosses fromTerritory.armies
            (Int.ofNat (compareDice (sortDesc ar) (sortDesc dr)).1)).total - 1,
          toTerritory.occupyingPlayer⟩ ∧
    (attackApply st fromTerritoryId toTerritoryId attackDice fromTerritory toTerritory
        ar dr).1
      = AttackResult.success (sortDesc ar) (sortDesc dr)
          (compareDice (sortDesc ar) (sortDesc dr)).1
          (compareDice (sortDesc ar) (sortDesc dr)).2 true ∧
    territoryOwners (attackApply st fromTerritoryId toTerritoryId attackDice
        fromTerritory toTerritory ar dr).2.territories
      = territoryOwners st.territories := by
  cases hcd : compareDice (sortDesc ar) (sortDesc dr) with
  | mk aL dL =>
    rw [hcd] at hzero
    simp only at hzero
    simp only [attackApply, hcd]
    rw [if_pos hzero]
    refine ⟨rfl, rfl, ?_⟩
    dsimp only
    rw [territoryOwners_updateFirst (fun (t : Territory) => t.id == fromTerritoryId)
        (fun (t : Territory) =>
          { t with armies := applyLosses fromTerritory.armies (Int.ofNat aL) })
        _ (fun t => ⟨rfl, rfl⟩)]
    rw [territoryOwners_updateFirst (fun (t : Territory) => t.id == toTerritoryId)
        (fun (t : Territory) =>
          { t with armies := applyLosses toTerritory.armies (Int.ofNat dL) })
        _ (fun t => ⟨rfl, rfl⟩)]

/-- `completeConquest` by the current player with an army count inside the
pending range succeeds and clears the pending record. -/
lemma conquest_accepts_in_range (st : GameState) (pc : PendingConquest)
    (cp pl df : Player) (fT tT : Territory) (dId : String) (armyCount : Int)
    (hpend : st.pendingConquest = some pc)
    (hcp : st.getCurrentPlayer = some cp)
    (hmin : pc.minArmies ≤ armyCount) (hmax : armyCount ≤ pc.maxArmies)
    (hpl : st.players.find? (fun p => p.id == cp.id) = some pl)
    (hdid : pc.defenderId = some dId)
    (hdf : st.players.find? (fun p => p.id == dId) = some df)
    (hfT : st.territories.find? (fun t => t.id == pc.fromTerritoryId) = some fT)
    (htT : st.territories.find? (fun t => t.id == pc.toTerritoryId) = some tT) :
    ∃ (elim : Bool) (st' : GameState),
      GameEngine.completeConquest st cp.id armyCount
        = some (ConquestResult.completed tT.name elim, st') ∧
      st'.pendingConquest = none := by
  unfold GameEngine.completeConquest
  rw [hpend, hcp]
  dsimp only
  have hne : (cp.id != cp.id) = false := by simp
  rw [hne]
  have hcond : (decide (armyCount < pc.minArmies)
      || decide (armyCount > pc.maxArmies)) = false := by
    simp only [Bool.or_eq_false_iff, decide_eq_false_iff_not, not_lt]
    exact ⟨hmin, hmax⟩
  simp only [Bool.false_eq_true, if_false, hcond]
  rw [hpl, hdid]
  simp only [Option.some_bind]
  rw [hdf, hfT, htT]
  exact ⟨_, _, rfl, rfl⟩

/-- `completeConquest` by the current player with an army count outside the
pending range is rejected, echoing `minArmies` and `maxArmies`, without
state change. -/
lemma conquest_rejects_out_of_range (st : GameState) (pc : PendingConquest)
    (cp : Player) (armyCount : Int)
    (hpend : st.pendingConquest = some pc)
    (hcp : st.getCurrentPlayer = some cp)
    (hout : armyCount < pc.minArmies ∨ armyCount > pc.maxArmies) :
    GameEngine.completeConquest st cp.id armyCount
      = some (ConquestResult.invalidCount pc.minArmies pc.maxArmies, st) := by
  unfold GameEngine.completeConquest
  rw [hpend, hcp]
  dsimp only
  have hne : (cp.id != cp.id) = false := by simp
  rw [hne]
  have hcond : (decide (armyCount < pc.minArmies)
      || decide (armyCount > pc.maxArmies)) = true := by
    rcases hout with h | h <;> simp [h]
  simp only [Bool.false_eq_true, if_false, hcond, if_true]

/-- C7 (confirmed): (i) an attack whose casualties reduce the defending
territory's army value to 0 opens a PendingConquest with
`minArmies = attackDice` and `maxArmies =` the attacking territory's
(post-casualty) total army value − 1, with no ownership change yet;
(ii) a subsequent `completeConquest` by the attacker succeeds for every
army count within `[minArmies, maxArmies]` and clears the record; and
(iii) is rejected with `minArmies`/`maxArmies` echoed back, and no state
change, for every army count outside that range. -/
theorem pending_conquest_protocol :
    (∀ (st : GameState) (fromTerritoryId toTerritoryId : String) (attackDice : Int)
        (fromTerritory toTerritory : Territory) (ar dr : List Int),
      (applyLosses toTerritory.armies
          (Int.ofNat (compareDice (sortDesc ar) (sortDesc dr)).2)).total = 0 →
      (attackApply st fromTerritoryId toTerritoryId attackDice fromTerritory
          toTerritory ar dr).2.pendingConquest
        = some ⟨fromTerritoryId, toTerritoryId, attackDice,
            (applyLosses fromTerritory.armies
              (Int.ofNat (compareDice (sortDesc ar) (sortDesc dr)).1)).total - 1,
            toTerritory.occupyingPlayer⟩ ∧
      (attackApply st fromTerritoryId toTerritoryId attackDice fromTerritory
          toTerritory ar dr).1
        = AttackResult.success (sortDesc ar) (sortDesc dr)
            (compareDice (sortDesc ar) (sortDesc dr)).1
            (compareDice (sortDesc ar) (sortDesc dr)).2 true ∧
      territoryOwners (attackApply st fromTerritoryId toTerritoryId attackDice
          fromTerritory toTerritory ar dr).2.territories
        = territoryOwners st.territories) ∧
    (∀ (st : GameState) (pc : PendingConquest) (cp pl df : Player)
        (fT tT : Territory) (dId : String) (armyCount : Int),
      st.pendingConquest = some pc →
      st.getCurrentPlayer = some cp →
      pc.minArmies ≤ armyCount → armyCount ≤ pc.maxArmies →
      st.players.find? (fun p => p.id == cp.id) = some pl →
      pc.defenderId = some dId →
      st.players.find? (fun p => p.id == dId) = some df →
      st.territories.find? (fun t => t.id == pc.fromTerritoryId) = some fT →
      st.territories.find? (fun t => t.id == pc.toTerritoryId) = some tT →
      ∃ (elim : Bool) (st' : GameState),
        GameEngine.completeConquest st cp.id armyCount
          = some (ConquestResult.completed tT.name elim, st') ∧
        st'.pendingConquest = none) ∧
    (∀ (st : GameState) (pc : PendingConquest) (cp : Player) (armyCount : Int),
      st.pendingConquest = some pc →
      st.getCurrentPlayer = some cp →
      armyCount < pc.minArmies ∨ armyCount > pc.maxArmies →
      GameEngine.completeConquest st cp.id armyCount
        = some (ConquestResult.invalidCount pc.minArmies pc.maxArmies, st)) :=
  ⟨fun st f t d ft tt ar dr hz => attack_opens_pending st f t d ft tt ar dr hz,
   fun st pc cp pl df fT tT dId c h1 h2 h3 h4 h5 h6 h7 h8 h9 =>
     conquest_accepts_in_range st pc cp pl df fT tT dId c h1 h2 h3 h4 h5 h6 h7 h8 h9,
   fun st pc cp c h1 h2 h3 => conquest_rejects_out_of_range st pc cp c h1 h2 h3⟩

/-- Witness for C7: the theorem applied to the spec's own example — an
attack with 1 die conquers B (opening the range [1, 2]), and in
`conquestRangeState` (a 3-dice conquest with attacker value 6) army counts
4 is accepted while 2 and 6 are rejected echoing [3, 5]. -/
theorem pending_conquest_protocol_witness :
    (attackApply attackCavDefState "A" "B" 1
        (mkTerritory "A" ["B"] (some "p1") ⟨3, 0, 0⟩)
        (mkTerritory "B" ["A"] (some "p2") ⟨0, 1, 0⟩) [6] [1, 1]).2.pendingConquest
      = some ⟨"A", "B", 1, 2, some "p2"⟩ ∧
    (∃ (elim : Bool) (st' : GameState),
      GameEngine.completeConquest conquestRangeState "p1" 4
        = some (ConquestResult.completed "B" elim, st') ∧
      st'.pendingConquest = none) ∧
    GameEngine.completeConquest conquestRangeState "p1" 2
      = some (ConquestResult.invalidCount 3 5, conquestRangeState) ∧
    GameEngine.completeConquest conquestRangeState "p1" 6
      = some (ConquestResult.invalidCount 3 5, conquestRangeState) :=
  ⟨(pending_conquest_protocol.1 attackCavDefState "A" "B" 1
      (mkTerritory "A" ["B"] (some "p1") ⟨3, 0, 0⟩)
      (mkTerritory "B" ["A"] (some "p2") ⟨0, 1, 0⟩) [6] [1, 1] (by decide)).1,
   pending_conquest_protocol.2.1 conquestRangeState ⟨"A", "B", 3, 5, some "p2"⟩
      (mkPlayer "p1" ["A"]) (mkPlayer "p1" ["A"]) (mkPlayer "p2" ["B", "C"])
      (mkTerritory "A" ["B"] (some "p1") ⟨6, 0, 0⟩)
      (mkTerritory "B" ["A"] (some "p2") ⟨0, 0, 0⟩) "p2" 4
      rfl rfl (by decide) (by decide) rfl rfl rfl rfl rfl,
   pending_conquest_protocol.2.2 conquestRangeState ⟨"A", "B", 3, 5, some "p2"⟩
      (mkPlayer "p1" ["A"]) 2 rfl rfl (Or.inl (by decide)),
   pending_conquest_protocol.2.2 conquestRangeState ⟨"A", "B", 3, 5, some "p2"⟩
      (mkPlayer "p1" ["A"]) 6 rfl rfl (Or.inr (by decide))⟩

/-- The combat phase never reports a failure result. -/
lemma attackApply_not_failure (st : GameState) (f t : String) (d : Int)
    (ft tt : Territory) (ar dr : List Int) (e : String) :
    (attackApply st f t d ft tt ar dr).1 ≠ AttackResult.failure e := by
  simp only [attackApply]
  repeat' split
  all_goals simp

/-- The army-moving phase always reports success. -/
lemma fortifyApply_fst (st : GameState) (f t : String) (n : Int)
    (ft tt : Territory) :
    (fortifyApply st f t n ft tt).1 = true := by
  cases hmu : moveUnits ft.armies tt.armies n with
  | mk fa ta => simp only [fortifyApply, hmu]

/-- Reinforcement in any other phase fails without touching the state. -/
lemma reinforce_fail_phase (st : GameState) (pid : String)
    (reins : List (String × Int)) (hph : st.phase ≠ "reinforcement") :
    GameEngine.processReinforcement st pid reins = (false, st) := by
  unfold GameEngine.processReinforcement
  cases hf : st.players.find? (fun p => p.id == pid) with
  | none => rfl
  | some player =>
    have hb : (st.phase != "reinforcement") = true := by
      rw [bne_iff_ne]; exact hph
    simp [hb]

/-- Reinforcement by a non-current player fails without touching the
state. -/
lemma reinforce_fail_player (st : GameState) (pid : String)
    (reins : List (String × Int)) (hcur : isCurrentPlayerCheck st pid = false) :
    GameEngine.processReinforcement st pid reins = (false, st) := by
  unfold GameEngine.processReinforcement
  cases hf : st.players.find? (fun p => p.id == pid) with
  | none => rfl
  | some player => simp [hcur]

/-- Reinforcement requesting more armies than the allowance fails without
touching the state. -/
lemma reinforce_fail_allowance (st : GameState) (pid : String)
    (reins : List (String × Int)) (player : Player)
    (hf : st.players.find? (fun p => p.id == pid) = some player)
    (hcur : isCurrentPlayerCheck st pid = true)
    (hph : st.phase = "reinforcement")
    (htot : reins.foldl (fun acc kv => acc + kv.2) 0
      > player.getReinforcementArmies st.continents) :
    GameEngine.processReinforcement st pid reins = (false, st) := by
  unfold GameEngine.processReinforcement
  rw [hf]
  have hb : (st.phase != "reinforcement") = false := by
    simp [hph]
  simp only [hcur, hb, Bool.not_true, Bool.or_false, Bool.false_eq_true, if_false]
  rw [if_pos htot]

/-- Every failure result of `processAttack` leaves the state unchanged. -/
lemma attack_fail_unchanged (st : GameState) (pid f t : String) (d : Int)
    (ar dr : List Int) (e : String) (st2 : GameState)
    (h : GameEngine.processAttack st pid f t d ar dr = (.failure e, st2)) :
    st2 = st := by
  unfold GameEngine.processAttack at h
  repeat' split at h
  all_goals first
    | (simp only [Prod.mk.injEq] at h; exact h.2.symm)
    | exact absurd (congrArg Prod.fst h) (attackApply_not_failure _ _ _ _ _ _ _ _ e)

/-- Every failure result of `processFortification` leaves the state
unchanged. -/
lemma fortify_fail_unchanged (st : GameState) (pid f t : String) (n : Int)
    (st2 : GameState)
    (h : GameEngine.processFortification st pid f t n = (false, st2)) :
    st2 = st := by
  unfold GameEngine.processFortification at h
  repeat' split at h
  all_goals (try simp only [ite_self] at h)
  all_goals (try simp only [Int.reduceAdd] at h)
  repeat' split at h
  all_goals first
    | (simp only [Prod.mk.injEq] at h
       first
         | exact h.2.symm
         | exact h.symm)
    | (exfalso
       have hfst := congrArg Prod.fst h
       rw [fortifyApply_fst] at hfst
       exact Bool.true_eq_false.mp hfst)

/-- Every non-completed result of `completeConquest` leaves the state
unchanged. -/
lemma conquest_fail_unchanged (st : GameState) (pid : String) (c : Int)
    (r : ConquestResult) (st2 : GameState)
    (h : GameEngine.completeConquest st pid c = some (r, st2))
    (hne : ∀ (n : String) (b : Bool), r ≠ ConquestResult.completed n b) :
    st2 = st := by
  unfold GameEngine.completeConquest at h
  repeat' split at h
  all_goals first
    | exact Option.noConfusion h
    | (simp only [Option.some.injEq, Prod.mk.injEq] at h
       first
         | exact h.2.symm
         | exact h.symm
         | exact absurd h.1.symm (hne _ _))

/-- Every failure result of `processCardTrade` leaves the state
unchanged. -/
lemma trade_fail_unchanged (st : GameState) (pid : String) (ids : List String)
    (e : String) (st2 : GameState)
    (h : GameState.processCardTrade st pid ids = (.failure e, st2)) :
    st2 = st := by
  unfold GameState.processCardTrade at h
  repeat' split at h
  all_goals (try simp only [] at h)
  repeat' split at h
  all_goals first
    | (simp only [Prod.mk.injEq] at h
       first
         | exact h.2.symm
         | exact h.symm)
    | (exfalso; simp at h)

/-- C2 (corrected): `processAttack`, `processFortification`,
`completeConquest` and `processCardTrade` leave the game state unchanged on
every failure result, and `processReinforcement` leaves it unchanged on
every failure detected before its apply loop (wrong phase, wrong player,
exceeding the allowance).  The remaining failure — an unowned territory in
the reinforcement map — aborts mid-loop with earlier entries already
applied; see the counterexample. -/
theorem failed_actions_leave_state_unchanged :
    (∀ (st : GameState) (pid : String) (reins : List (String × Int)),
      st.phase ≠ "reinforcement" →
      GameEngine.processReinforcement st pid reins = (false, st)) ∧
    (∀ (st : GameState) (pid : String) (reins : List (String × Int)),
      isCurrentPlayerCheck st pid = false →
      GameEngine.processReinforcement st pid reins = (false, st)) ∧
    (∀ (st : GameState) (pid : String) (reins : List (String × Int)) (player : Player),
      st.players.find? (fun p => p.id == pid) = some player →
      isCurrentPlayerCheck st pid = true → st.phase = "reinforcement" →
      reins.foldl (fun acc kv => acc + kv.2) 0
          > player.getReinforcementArmies st.continents →
      GameEngine.processReinforcement st pid reins = (false, st)) ∧
    (∀ (st : GameState) (pid f t : String) (d : Int) (ar dr : List Int)
        (e : String) (st2 : GameState),
      GameEngine.processAttack st pid f t d ar dr = (.failure e, st2) → st2 = st) ∧
    (∀ (st : GameState) (pid : String) (c : Int) (r : ConquestResult)
        (st2 : GameState),
      GameEngine.completeConquest st pid c = some (r, st2) →
      (∀ (n : String) (b : Bool), r ≠ ConquestResult.completed n b) → st2 = st) ∧
    (∀ (st : GameState) (pid f t : String) (n : Int) (st2 : GameState),
      GameEngine.processFortification st pid f t n = (false, st2) → st2 = st) ∧
    (∀ (st : GameState) (pid : String) (ids : List String) (e : String)
        (st2 : GameState),
      GameState.processCardTrade st pid ids = (.failure e, st2) → st2 = st) :=
  ⟨fun st pid reins h => reinforce_fail_phase st pid reins h,
   fun st pid reins h => reinforce_fail_player st pid reins h,
   fun st pid reins player h1 h2 h3 h4 =>
     reinforce_fail_allowance st pid reins player h1 h2 h3 h4,
   fun st pid f t d ar dr e st2 h => attack_fail_unchanged st pid f t d ar dr e st2 h,
   fun st pid c r st2 h hne => conquest_fail_unchanged st pid c r st2 h hne,
   fun st pid f t n st2 h => fortify_fail_unchanged st pid f t n st2 h,
   fun st pid ids e st2 h => trade_fail_unchanged st pid ids e st2 h⟩

/-- Witness for C2: the theorem applied to an over-allowance reinforcement
request, an attack attempted outside the attack phase, and a conquest
completion without a pending conquest, all in `reinforceState`. -/
theorem failed_actions_leave_state_unchanged_witness :
    GameEngine.processReinforcement reinforceState "p1" [("T1", 99)]
      = (false, reinforceState) ∧
    (GameEngine.processAttack reinforceState "p1" "T1" "T2" 1 [6] [1]).2
      = reinforceState ∧
    (GameState.processCardTrade reinforceState "p1" ["x", "y", "z"]).2
      = reinforceState :=
  ⟨failed_actions_leave_state_unchanged.2.2.1 reinforceState "p1" [("T1", 99)]
      (mkPlayer "p1" ["T1"]) rfl rfl rfl (by decide),
   failed_actions_leave_state_unchanged.2.2.2.1 reinforceState "p1" "T1" "T2" 1
      [6] [1] "Not in attack phase" _ rfl,
   failed_actions_leave_state_unchanged.2.2.2.2.2.2 reinforceState "p1"
      ["x", "y", "z"] "Invalid cards" _ rfl⟩

/-- A card found by id carries that id. -/
lemma card_find?_id_eq {l : List Card} {i : String} {c : Card}
    (h : l.find? (fun c => c.id == i) = some c) : c.id = i := by
  have := List.find?_some h
  simpa [beq_iff_eq] using this

/-- In a hand with pairwise-distinct card ids, a successful lookup means
exactly one card has that id. -/
lemma countId_one_of_find (hand : List Card) (cid : String) (c : Card)
    (hnodup : (hand.map (fun c => c.id)).Nodup)
    (hf : hand.find? (fun c => c.id == cid) = some c) :
    countCardId cid hand = 1 := by
  induction hand with
  | nil => simp at hf
  | cons x xs ih =>
    simp only [List.map_cons, List.nodup_cons] at hnodup
    by_cases hx : x.id = cid
    · have hbx : (x.id == cid) = true := by rw [beq_iff_eq]; exact hx
      have hcount0 : xs.countP (fun c => c.id == cid) = 0 := by
        rw [List.countP_eq_zero]
        intro a ha
        simp only [beq_iff_eq]
        intro hac
        apply hnodup.1
        have hxa : x.id = a.id := hx.trans hac.symm
        rw [hxa]
        exact List.mem_map_of_mem (fun c => c.id) ha
      simp only [countCardId, List.countP_cons, hbx, if_true, hcount0]
    · have hbx : (x.id == cid) = false := by
        rw [beq_eq_false_iff_ne]; exact hx
      rw [List.find?_cons, hbx] at hf
      have := ih hnodup.2 hf
      simp only [countCardId] at this ⊢
      simp only [List.countP_cons, hbx, Bool.false_eq_true, if_false, this]

/-- The cards gathered for a trade contain each id of a Nodup request list
exactly once (when every lookup succeeds). -/
lemma countId_reduceOption_map (hand : List Card) (ids : List String) (cid : String)
    (hnodup : ids.Nodup)
    (hsome : ∀ i ∈ ids, ∃ c, hand.find? (fun c => c.id == i) = some c) :
    countCardId cid ((ids.map (fun i => hand.find? (fun c => c.id == i))).reduceOption)
      = if cid ∈ ids then 1 else 0 := by
  induction ids with
  | nil => simp [countCardId]
  | cons i is ih =>
    obtain ⟨c, hc⟩ := hsome i (List.mem_cons_self i is)
    simp only [List.map_cons, hc, List.reduceOption_cons_of_some]
    simp only [List.nodup_cons] at hnodup
    have hrest := ih hnodup.2 (fun j hj => hsome j (List.mem_cons_of_mem i hj))
    have hcid : c.id = i := card_find?_id_eq hc
    by_cases hx : cid = i
    · have hbc : (c.id == cid) = true := by
        rw [beq_iff_eq, hcid, hx]
      simp only [countCardId, List.countP_cons] at hrest ⊢
      rw [hrest]
      simp [hbc, hx, hcid, hnodup.1]
    · have hbc : (c.id == cid) = false := by
        rw [beq_eq_false_iff_ne, hcid]
        exact fun hc2 => hx hc2.symm
      simp only [countCardId, List.countP_cons] at hrest ⊢
      rw [hrest]
      simp [hbc, hx, List.mem_cons]

/-- Removing all requested ids from the hand removes every card with a
requested id. -/
lemma countId_filter_mem (hand : List Card) (ids : List String) (cid : String)
    (hmem : cid ∈ ids) :
    countCardId cid (hand.filter (fun c => !(ids.contains c.id))) = 0 := by
  induction hand with
  | nil => rfl
  | cons x xs ih =>
    by_cases hx : ids.contains x.id
    · simp only [List.filter_cons, hx, Bool.not_true, Bool.false_eq_true, if_false]
      exact ih
    · have hx' : ids.contains x.id = false := by
        exact Bool.not_eq_true _ ▸ eq_false_of_ne_true hx
      have hxc : (x.id == cid) = false := by
        rw [beq_eq_false_iff_ne]
        intro he
        have : x.id ∈ ids := he ▸ hmem
        have : ids.contains x.id = true := by simpa using this
        rw [hx'] at this
        exact Bool.false_ne_true this
      simp only [List.filter_cons, hx', Bool.not_false, if_true, countCardId,
        List.countP_cons, hxc, Bool.false_eq_true, if_false]
      simpa [countCardId] using ih

/-- Removing all requested ids from the hand keeps the count of any
un-requested id. -/
lemma countId_filter_not_mem (hand : List Card) (ids : List String) (cid : String)
    (hmem : cid ∉ ids) :
    countCardId cid (hand.filter (fun c => !(ids.contains c.id)))
      = countCardId cid hand := by
  induction hand with
  | nil => rfl
  | cons x xs ih =>
    by_cases hxc : x.id = cid
    · have hx' : ids.contains x.id = false := by
        have : x.id ∉ ids := by rw [hxc]; exact hmem
        simpa using this
      have hbx : (x.id == cid) = true := by rw [beq_iff_eq]; exact hxc
      simp only [List.filter_cons, hx', Bool.not_false, if_true, countCardId,
        List.countP_cons, hbx, if_true]
      simp only [countCardId] at ih
      rw [ih]
    · have hbx : (x.id == cid) = false := by
        rw [beq_eq_false_iff_ne]; exact hxc
      by_cases hx : ids.contains x.id
      · simp only [List.filter_cons, hx, Bool.not_true, Bool.false_eq_true, if_false,
          countCardId, List.countP_cons, hbx]
        simp only [countCardId] at ih
        rw [ih]
        omega
      · have hx' : ids.contains x.id = false := by
          exact Bool.not_eq_true _ ▸ eq_false_of_ne_true hx
        simp only [List.filter_cons, hx', Bool.not_false, if_true, countCardId,
          List.countP_cons, hbx, Bool.false_eq_true, if_false]
        simp only [countCardId] at ih
        rw [ih]

/-- If the gathered lookup list contains no `none`, every requested id was
found in the hand. -/
lemma finds_some_of_not_contains_none (hand : List Card) (ids : List String)
    (h : (ids.map (fun i => hand.find? (fun c => c.id == i))).contains none = false) :
    ∀ i ∈ ids, ∃ c, hand.find? (fun c => c.id == i) = some c := by
  intro i hi
  cases hf : hand.find? (fun c => c.id == i) with
  | some c => exact ⟨c, rfl⟩
  | none =>
    exfalso
    have hmem : (none : Option Card)
        ∈ ids.map (fun i => hand.find? (fun c => c.id == i)) := by
      rw [← hf]
      exact List.mem_map_of_mem _ hi
    have : (ids.map (fun i => hand.find? (fun c => c.id == i))).contains none
        = true := by simpa using hmem
    rw [h] at this
    exact Bool.false_ne_true this

/-- C4 (corrected): a card trade whose `cardIds` are pairwise distinct (in
a hand with pairwise-distinct card ids) succeeds and conserves cards: the
deck is untouched and, for every card id, the number of cards bearing that
id across the trading player's hand plus the discard pile is unchanged.
(With a repeated id in `cardIds` the trade duplicates a card; see the
counterexample.) -/
theorem distinct_card_trade_conserves_cards
    (st : GameState) (pid : String) (cardIds : List String) (player : Player)
    (hpl : st.players.find? (fun p => p.id == pid) = some player)
    (helim : player.eliminated = false)
    (hcur : isCurrentPlayerCheck st pid = true)
    (hph : st.phase = "reinforcement")
    (hnone : (cardIds.map
        (fun cid => player.cards.find? (fun c => c.id == cid))).contains none = false)
    (hlen : cardIds.length = 3)
    (hvalid : GameState.isValidCardSet
        (cardIds.map
          (fun cid => player.cards.find? (fun c => c.id == cid))).reduceOption = true)
    (hnodupIds : cardIds.Nodup)
    (hnodupHand : (player.cards.map (fun c => c.id)).Nodup) :
    (GameState.processCardTrade st pid cardIds).1.isOk = true ∧
    (GameState.processCardTrade st pid cardIds).2.cardDeck = st.cardDeck ∧
    ∀ cid,
      countCardId cid
          (playerCards (GameState.processCardTrade st pid cardIds).2.players pid)
        + countCardId cid (GameState.processCardTrade st pid cardIds).2.discardPile
      = countCardId cid player.cards + countCardId cid st.discardPile := by
  have hb : (st.phase != "reinforcement") = false := by simp [hph]
  have hl : ((cardIds.map
      (fun cid => player.cards.find? (fun c => c.id == cid))).length != 3) = false := by
    simp [List.length_map, hlen]
  have hnv : (!(GameState.isValidCardSet
      (cardIds.map
        (fun cid => player.cards.find? (fun c => c.id == cid))).reduceOption)) = false := by
    rw [hvalid]
    rfl
  unfold GameState.processCardTrade
  rw [hpl]
  simp only [helim, Bool.false_eq_true, if_false, hcur, hb, Bool.not_true,
    Bool.or_false, hnone, hl, hnv]
  refine ⟨by trivial, by trivial, ?_⟩
  intro cid
  unfold playerCards
  rw [find?_updateFirst_self (fun (p : Player) => p.id == pid)
      (fun (p : Player) =>
        { p with cards := p.cards.filter (fun c => !(cardIds.contains c.id)) })
      _ (fun x => rfl), hpl]
  simp only [Option.map_some', Option.getD_some, countCardId, List.countP_append]
  have hsome := finds_some_of_not_contains_none player.cards cardIds hnone
  have htraded := countId_reduceOption_map player.cards cardIds cid hnodupIds hsome
  by_cases hmem : cid ∈ cardIds
  · have hfilter := countId_filter_mem player.cards cardIds cid hmem
    obtain ⟨c, hc⟩ := hsome cid hmem
    have hone := countId_one_of_find player.cards cid c hnodupHand hc
    simp only [countCardId] at hfilter htraded hone
    rw [hfilter, hone, htraded, if_pos hmem]
    omega
  · have hfilter := countId_filter_not_mem player.cards cardIds cid hmem
    simp only [countCardId] at hfilter htraded
    rw [hfilter, htraded, if_neg hmem]
    omega

/-- Witness for C4: the theorem applied to a trade of the three distinct
infantry cards card1/card2/card3 in `distinctTradeState`, evaluated at id
`card1`. -/
theorem distinct_card_trade_conserves_cards_witness :
    (GameState.processCardTrade distinctTradeState "p1"
        ["card1", "card2", "card3"]).1.isOk = true ∧
    countCardId "card1"
        (playerCards (GameState.processCardTrade distinctTradeState "p1"
          ["card1", "card2", "card3"]).2.players "p1")
      + countCardId "card1"
          (GameState.processCardTrade distinctTradeState "p1"
            ["card1", "card2", "card3"]).2.discardPile
      = countCardId "card1" [card1, card2, card3]
        + countCardId "card1" distinctTradeState.discardPile :=
  let thm := distinct_card_trade_conserves_cards distinctTradeState "p1"
    ["card1", "card2", "card3"]
    { mkPlayer "p1" ["T1"] with cards := [card1, card2, card3] }
    rfl rfl (by decide) rfl (by decide) rfl (by decide) (by decide) (by decide)
  ⟨thm.1, thm.2.2 "card1"⟩
